import Mathlib

/-!
Shallow embedding of the TinyGPS++ NMEA parser (src/src/TinyGPS++.cpp,
src/src/TinyGPS++.h) and proofs about its claims.

Modelling conventions:
* C characters and buffer bytes are modelled as natural numbers; every
  character entering the machine is reduced modulo 256, matching the 8-bit
  char of the target.  Where the C code compares a char relationally
  (for instance term[0] > the digit zero) the signed-char value is used,
  via sByte, matching the AVR target on which char is signed.
* The 15-byte term buffer is modelled as a list of 15 bytes, including the
  bytes left over from earlier terms, so that reads of stale buffer
  contents behave as in the C code.  Bytes never written by the C
  constructor are modelled as 0.
* atol is modelled mathematically (exact integers); overflow of the C long
  is undefined behaviour and outside the model.  Unsigned 32-bit and
  16-bit conversions that the code performs are modelled with explicit
  mod 2^32 / mod 2^16.
* The millis() clock is modelled as an external field now that feeding
  characters never changes.
* The custom-entry linked list is modelled as a list of entries; the
  customCandidates pointer is modelled as an index into that list
  (none standing for NULL).
-/

/-- Signed 8-bit reinterpretation of a byte, as used when the C code
compares a char relationally. -/
def sByte (b : Nat) : Int :=
  if b % 256 < 128 then (b % 256 : Int) else (b % 256 : Int) - 256

/-- isdigit on a byte (ASCII digits 0-9). -/
def isDigitB (c : Nat) : Bool := 48 ≤ c ∧ c ≤ 57

/-- isspace on a byte (space and the five ASCII control whitespace chars). -/
def isSpaceB (c : Nat) : Bool := c = 32 ∨ (9 ≤ c ∧ c ≤ 13)

/-- Accumulate a maximal run of leading decimal digits, as the digit loop of
atol does. -/
def digitsVal : List Nat → Nat → Nat
  | [], acc => acc
  | c :: cs, acc => if isDigitB c then digitsVal cs (acc * 10 + (c - 48)) else acc

/-- Numeric value of a digit string (used by claim-side formulas). -/
def natOfDigits (ds : List Nat) : Nat :=
  ds.foldl (fun a d => a * 10 + (d - 48)) 0

/-- atol on a byte string: skip leading whitespace, optional sign, then a
maximal digit run.  Modelled with exact integers (overflow of the C long is
undefined behaviour). -/
def atolB (s : List Nat) : Int :=
  let s1 := s.dropWhile isSpaceB
  if s1.getD 0 0 = 43 then (digitsVal s1.tail 0 : Int)
  else if s1.getD 0 0 = 45 then -(digitsVal s1.tail 0 : Int)
  else (digitsVal s1 0 : Int)

/-- Bytes of a Lean string literal (all our literals are ASCII). -/
def bytes (s : String) : List Nat := s.toList.map Char.toNat

/-- strcmp on NUL-free byte strings: 0 iff equal (for NUL-free lists),
negative iff the first is lexicographically smaller.  The end of a list
plays the role of the terminating NUL byte. -/
def strcmpB : List Nat → List Nat → Int
  | [], [] => 0
  | [], b :: _ => -(b : Int)
  | a :: _, [] => (a : Int)
  | a :: as, b :: bs => if a = b then strcmpB as bs else (a : Int) - (b : Int)

/-- The C string held in a buffer: the bytes before the first NUL. -/
def cstr (t : List Nat) : List Nat := t.takeWhile (· ≠ 0)

/-- TinyGPSPlus::fromHex, with the signed-char comparisons of the source. -/
def fromHex (a : Nat) : Int :=
  let s := sByte a
  if 65 ≤ s ∧ s ≤ 70 then s - 65 + 10
  else if 97 ≤ s ∧ s ≤ 102 then s - 97 + 10
  else s - 48

/-- The two-hex-digit checksum value the end-of-term handler reads from the
first two bytes of the term buffer (byte checksum = 16*fromHex(term[0]) +
fromHex(term[1]), converted to uint8). -/
def csVal (t : List Nat) : Nat :=
  ((16 * fromHex (t.getD 0 0) + fromHex (t.getD 1 0)).emod 256).toNat

/-- TinyGPSPlus::parseDecimal: optional leading minus, 100*atol of the rest,
then up to two digits after a decimal point. -/
def parseDecimal (t : List Nat) : Int :=
  let neg := t.getD 0 0 = 45
  let t1 := if neg then t.tail else t
  let ret0 : Int := 100 * atolB t1
  let t2 := t1.dropWhile isDigitB
  let frac : Int :=
    match t2 with
    | 46 :: d1 :: rest =>
      if isDigitB d1 then
        10 * ((d1 : Int) - 48) +
          (match rest with
           | d2 :: _ => if isDigitB d2 then (d2 : Int) - 48 else 0
           | [] => 0)
      else 0
    | _ => 0
  let ret := ret0 + frac
  if neg then -ret else ret

/-- Raw NMEA angle: integer degrees, billionths of a degree, sign flag
(struct RawDegrees). -/
structure RawDegrees where
  deg : Nat
  billionths : Nat
  negative : Bool
deriving Repr, DecidableEq

/-- The fractional-minute accumulation loop of parseDegrees: the multiplier
starts at 10^7 and is divided by 10 before each digit is folded in. -/
def fracFold (fs : List Nat) (a m : Nat) : Nat :=
  match fs with
  | [] => a
  | d :: ds => fracFold ds (a + (d - 48) * (m / 10)) (m / 10)

/-- TinyGPSPlus::parseDegrees.  The uint32 additions building
tenMillionthsOfMinutes never wrap (see fracFold_le below), so they are
written without a mod; the 5*T+1 computation and the int16/uint16 degree
conversion do wrap and carry explicit mods. -/
def parseDegrees (t : List Nat) : RawDegrees :=
  let leftOfDecimal : Nat := ((atolB t).emod (2 ^ 32)).toNat
  let minutes := leftOfDecimal % 100
  let t2 := t.dropWhile isDigitB
  let fracDigits :=
    match t2 with
    | 46 :: rest => rest.takeWhile isDigitB
    | _ => []
  let tenMillionthsOfMinutes := fracFold fracDigits (minutes * 10000000) 10000000
  { deg := (leftOfDecimal / 100) % 2 ^ 16
    billionths := ((5 * tenMillionthsOfMinutes + 1) % 2 ^ 32) / 3
    negative := false }

/-- Location container (class TinyGPSLocation): committed and staged raw
angles plus the valid/updated flags and the commit timestamp. -/
structure TinyGPSLocation where
  valid : Bool
  updated : Bool
  rawLatData : RawDegrees
  rawLngData : RawDegrees
  rawNewLatData : RawDegrees
  rawNewLngData : RawDegrees
  lastCommitTime : Nat
deriving Repr, DecidableEq

/-- Date container (class TinyGPSDate). -/
structure TinyGPSDate where
  valid : Bool
  updated : Bool
  date : Nat
  newDate : Nat
  lastCommitTime : Nat
deriving Repr, DecidableEq

/-- Time container (struct TinyGPSTime). -/
structure TinyGPSTime where
  valid : Bool
  updated : Bool
  time : Nat
  newTime : Nat
  lastCommitTime : Nat
deriving Repr, DecidableEq

/-- Fixed-point container (class TinyGPSDecimal); speed, course, altitude
and hdop are all instances of this shape. -/
structure TinyGPSDecimal where
  valid : Bool
  updated : Bool
  lastCommitTime : Nat
  val : Int
  newval : Int
deriving Repr, DecidableEq

/-- Integer container (class TinyGPSInteger); the satellites counter. -/
structure TinyGPSInteger where
  valid : Bool
  updated : Bool
  lastCommitTime : Nat
  val : Nat
  newval : Nat
deriving Repr, DecidableEq

/-- Custom registry entry (class TinyGPSCustom). -/
structure TinyGPSCustom where
  stagingBuffer : List Nat
  buffer : List Nat
  lastCommitTime : Nat
  valid : Bool
  updated : Bool
  sentenceName : List Nat
  termNumber : Int
deriving Repr, DecidableEq

def TinyGPSLocation.commit (l : TinyGPSLocation) (now : Nat) : TinyGPSLocation :=
  { l with rawLatData := l.rawNewLatData, rawLngData := l.rawNewLngData,
           lastCommitTime := now, valid := true, updated := true }

def TinyGPSLocation.setLatitude (l : TinyGPSLocation) (t : List Nat) : TinyGPSLocation :=
  { l with rawNewLatData := parseDegrees t }

def TinyGPSLocation.setLongitude (l : TinyGPSLocation) (t : List Nat) : TinyGPSLocation :=
  { l with rawNewLngData := parseDegrees t }

def TinyGPSLocation.setLatitudeNegative (l : TinyGPSLocation) (b : Bool) : TinyGPSLocation :=
  { l with rawNewLatData := { l.rawNewLatData with negative := b } }

def TinyGPSLocation.setLongitudeNegative (l : TinyGPSLocation) (b : Bool) : TinyGPSLocation :=
  { l with rawNewLngData := { l.rawNewLngData with negative := b } }

def TinyGPSDate.commit (d : TinyGPSDate) (now : Nat) : TinyGPSDate :=
  { d with date := d.newDate, lastCommitTime := now, valid := true, updated := true }

/-- newDate = atol(term); stored in a uint32. -/
def TinyGPSDate.setDate (d : TinyGPSDate) (t : List Nat) : TinyGPSDate :=
  { d with newDate := ((atolB t).emod (2 ^ 32)).toNat }

def TinyGPSTime.commit (x : TinyGPSTime) (now : Nat) : TinyGPSTime :=
  { x with time := x.newTime, lastCommitTime := now, valid := true, updated := true }

/-- newTime = (uint32)parseDecimal(term). -/
def TinyGPSTime.setTime (x : TinyGPSTime) (t : List Nat) : TinyGPSTime :=
  { x with newTime := ((parseDecimal t).emod (2 ^ 32)).toNat }

def TinyGPSDecimal.commit (x : TinyGPSDecimal) (now : Nat) : TinyGPSDecimal :=
  { x with val := x.newval, lastCommitTime := now, valid := true, updated := true }

def TinyGPSDecimal.set (x : TinyGPSDecimal) (t : List Nat) : TinyGPSDecimal :=
  { x with newval := parseDecimal t }

def TinyGPSInteger.commit (x : TinyGPSInteger) (now : Nat) : TinyGPSInteger :=
  { x with val := x.newval, lastCommitTime := now, valid := true, updated := true }

/-- newval = atol(term); stored in a uint32. -/
def TinyGPSInteger.set (x : TinyGPSInteger) (t : List Nat) : TinyGPSInteger :=
  { x with newval := ((atolB t).emod (2 ^ 32)).toNat }

/-- TinyGPSCustom::commit: strcpy staging into the published buffer, stamp
the time, set valid and updated. -/
def TinyGPSCustom.commit (e : TinyGPSCustom) (now : Nat) : TinyGPSCustom :=
  { e with buffer := e.stagingBuffer, lastCommitTime := now,
           valid := true, updated := true }

/-- TinyGPSCustom::set: strncpy of the term text into the staging buffer
(capacity 16 bytes including the terminator). -/
def TinyGPSCustom.set (e : TinyGPSCustom) (t : List Nat) : TinyGPSCustom :=
  { e with stagingBuffer := t.take 16 }

/-- The sentence classification (enum in TinyGPSPlus); the numeric codes
GPGGA = 0, GPRMC = 1, OTHER = 2 of the C enum are produced by
sentenceCode below. -/
inductive SentenceType where
  | gpgga
  | gprmc
  | other
deriving Repr, DecidableEq

def sentenceCode : SentenceType → Nat
  | .gpgga => 0
  | .gprmc => 1
  | .other => 2

/-- Whole-parser state (class TinyGPSPlus). -/
structure TinyGPSPlus where
  parity : Nat
  isChecksumTerm : Bool
  term : List Nat
  curSentenceType : SentenceType
  curTermNumber : Nat
  curTermOffset : Nat
  sentenceHasFix : Bool
  customElts : List TinyGPSCustom
  customCandidates : Option Nat
  encodedCharCount : Nat
  sentencesWithFixCount : Nat
  failedChecksumCount : Nat
  passedChecksumCount : Nat
  location : TinyGPSLocation
  date : TinyGPSDate
  time : TinyGPSTime
  speed : TinyGPSDecimal
  course : TinyGPSDecimal
  altitude : TinyGPSDecimal
  hdop : TinyGPSDecimal
  satellites : TinyGPSInteger
  now : Nat
deriving Repr, DecidableEq

/-- The freshly constructed parser (TinyGPSPlus::TinyGPSPlus together with
the member initializers of the containers).  The constructor writes only
term[0]; the bytes it leaves indeterminate are modelled as 0. -/
def gpsInit : TinyGPSPlus :=
  { parity := 0
    isChecksumTerm := false
    term := List.replicate 15 0
    curSentenceType := .other
    curTermNumber := 0
    curTermOffset := 0
    sentenceHasFix := false
    customElts := []
    customCandidates := none
    encodedCharCount := 0
    sentencesWithFixCount := 0
    failedChecksumCount := 0
    passedChecksumCount := 0
    location := ⟨false, false, ⟨0, 0, false⟩, ⟨0, 0, false⟩, ⟨0, 0, false⟩, ⟨0, 0, false⟩, 0⟩
    date := ⟨false, false, 0, 0, 0⟩
    time := ⟨false, false, 0, 0, 0⟩
    speed := ⟨false, false, 0, 0, 0⟩
    course := ⟨false, false, 0, 0, 0⟩
    altitude := ⟨false, false, 0, 0, 0⟩
    hdop := ⟨false, false, 0, 0, 0⟩
    satellites := ⟨false, false, 0, 0, 0⟩
    now := 0 }

/-- TinyGPSPlus::insertCustom: walk the list and insert the new entry in
front of the first existing entry that is strictly greater in the
(sentence-name, term-number) order. -/
def insertCustom (e : TinyGPSCustom) : List TinyGPSCustom → List TinyGPSCustom
  | [] => [e]
  | x :: xs =>
    let cmp := strcmpB e.sentenceName x.sentenceName
    if cmp < 0 ∨ (cmp = 0 ∧ e.termNumber < x.termNumber) then e :: x :: xs
    else x :: insertCustom e xs

/-- A freshly begun custom entry (TinyGPSCustom::begin): cleared buffers,
flags false, timestamp 0. -/
def mkCustom (name : List Nat) (tn : Int) : TinyGPSCustom :=
  { stagingBuffer := [], buffer := [], lastCommitTime := 0,
    valid := false, updated := false, sentenceName := name, termNumber := tn }

/-- Registration of a custom entry with the parser. -/
def registerCustom (g : TinyGPSPlus) (name : List Nat) (tn : Int) : TinyGPSPlus :=
  { g with customElts := insertCustom (mkCustom name tn) g.customElts }

/-- The candidate scan of endOfTermHandler for term number 0, as a relative
index: advance while the entry name is smaller than the sentence name, then
drop the result if the name it stopped on is greater. -/
def scanFrom : List TinyGPSCustom → List Nat → Option Nat
  | [], _ => none
  | e :: es, name =>
    if strcmpB e.sentenceName name < 0 then (scanFrom es name).map (· + 1)
    else if strcmpB e.sentenceName name > 0 then none
    else some 0

def scanCandidates (elts : List TinyGPSCustom) (name : List Nat) : Option Nat :=
  scanFrom elts name

/-- The per-data-term custom loop of endOfTermHandler: walk from the first
candidate while the name still matches the first candidate's name and the
registered term number has not been passed, staging the term text into
entries registered for exactly this term number. -/
def setCandidatesRun (firstName : List Nat) (tn : Nat) (txt : List Nat) :
    List TinyGPSCustom → List TinyGPSCustom
  | [] => []
  | p :: ps =>
    if strcmpB p.sentenceName firstName = 0 ∧ p.termNumber ≤ (tn : Int) then
      (if p.termNumber = (tn : Int) then p.set txt else p)
        :: setCandidatesRun firstName tn txt ps
    else p :: ps

/-- The commit loop of endOfTermHandler on checksum success: commit every
entry from the first candidate onwards whose name matches the first
candidate's name. -/
def commitCandidatesRun (now : Nat) (firstName : List Nat) :
    List TinyGPSCustom → List TinyGPSCustom
  | [] => []
  | p :: ps =>
    if strcmpB p.sentenceName firstName = 0 then
      p.commit now :: commitCandidatesRun now firstName ps
    else p :: ps

/-- The case labels of the native dispatch switch of endOfTermHandler. -/
inductive NativeAction where
  | actTime
  | actFixRMC
  | actLat
  | actLatNeg
  | actLng
  | actLngNeg
  | actSpeed
  | actCourse
  | actDate
  | actFixGGA
  | actSats
  | actHdop
  | actAlt
  | actNone
deriving Repr, DecidableEq

/-- Which case of the switch a COMBINE key selects.  COMBINE(sentence_type,
term_number) = (type shifted left by 5) bitwise-or term_number, exactly as
the C macro computes it (a bitwise or, so large term numbers can collide
with the other sentence kind's case labels). -/
def dispatchKey (key : Nat) : NativeAction :=
  if key = 33 ∨ key = 1 then .actTime
  else if key = 34 then .actFixRMC
  else if key = 35 ∨ key = 2 then .actLat
  else if key = 36 ∨ key = 3 then .actLatNeg
  else if key = 37 ∨ key = 4 then .actLng
  else if key = 38 ∨ key = 5 then .actLngNeg
  else if key = 39 then .actSpeed
  else if key = 40 then .actCourse
  else if key = 41 then .actDate
  else if key = 6 then .actFixGGA
  else if key = 7 then .actSats
  else if key = 8 then .actHdop
  else if key = 9 then .actAlt
  else .actNone

/-- The body of each switch case. -/
def applyNative (g : TinyGPSPlus) (txt : List Nat) : NativeAction → TinyGPSPlus
  | .actTime => { g with time := g.time.setTime txt }
  | .actFixRMC => { g with sentenceHasFix := g.term.getD 0 0 = 65 }
  | .actLat => { g with location := g.location.setLatitude txt }
  | .actLatNeg => { g with location := g.location.setLatitudeNegative (g.term.getD 0 0 = 83) }
  | .actLng => { g with location := g.location.setLongitude txt }
  | .actLngNeg => { g with location := g.location.setLongitudeNegative (g.term.getD 0 0 = 87) }
  | .actSpeed => { g with speed := g.speed.set txt }
  | .actCourse => { g with course := g.course.set txt }
  | .actDate => { g with date := g.date.setDate txt }
  | .actFixGGA => { g with sentenceHasFix := 48 < sByte (g.term.getD 0 0) }
  | .actSats => { g with satellites := g.satellites.set txt }
  | .actHdop => { g with hdop := g.hdop.set txt }
  | .actAlt => { g with altitude := g.altitude.set txt }
  | .actNone => g

/-- The native dispatch switch of endOfTermHandler. -/
def dispatchNative (g : TinyGPSPlus) (txt : List Nat) : TinyGPSPlus :=
  applyNative g txt
    (dispatchKey ((sentenceCode g.curSentenceType) <<< 5 ||| g.curTermNumber))

/-- The commits of the recognized sentence kinds on checksum success:
GPRMC commits date and time always and location, speed, course only when
the sentence had a fix; GPGGA commits time, satellites, hdop always and
location, altitude only when the sentence had a fix. -/
def commitNative (g : TinyGPSPlus) : TinyGPSPlus :=
  match g.curSentenceType with
  | .gprmc =>
    let g := { g with date := g.date.commit g.now, time := g.time.commit g.now }
    if g.sentenceHasFix then
      { g with location := g.location.commit g.now,
               speed := g.speed.commit g.now,
               course := g.course.commit g.now }
    else g
  | .gpgga =>
    let g := { g with time := g.time.commit g.now }
    let g :=
      if g.sentenceHasFix then
        { g with location := g.location.commit g.now,
                 altitude := g.altitude.commit g.now }
      else g
    { g with satellites := g.satellites.commit g.now, hdop := g.hdop.commit g.now }
  | .other => g

/-- The custom-entry commit step of the checksum-success path. -/
def commitCustoms (g : TinyGPSPlus) : TinyGPSPlus :=
  match g.customCandidates with
  | none => g
  | some i =>
    match g.customElts[i]? with
    | none => g
    | some fc =>
      { g with customElts :=
          g.customElts.take i ++
            commitCandidatesRun g.now fc.sentenceName (g.customElts.drop i) }

/-- The custom-entry staging step of the data-term path. -/
def setCustoms (g : TinyGPSPlus) (txt : List Nat) : TinyGPSPlus :=
  match g.customCandidates with
  | none => g
  | some i =>
    match g.customElts[i]? with
    | none => g
    | some fc =>
      { g with customElts :=
          g.customElts.take i ++
            setCandidatesRun fc.sentenceName g.curTermNumber txt (g.customElts.drop i) }

/-- TinyGPSPlus::endOfTermHandler.  The term buffer has already been
NUL-terminated at the current offset by the caller. -/
def endOfTermHandler (g : TinyGPSPlus) : Bool × TinyGPSPlus :=
  if g.isChecksumTerm then
    if csVal g.term = g.parity then
      let g := { g with passedChecksumCount := (g.passedChecksumCount + 1) % 2 ^ 32 }
      let g :=
        if g.sentenceHasFix then
          { g with sentencesWithFixCount := (g.sentencesWithFixCount + 1) % 2 ^ 32 }
        else g
      (true, commitCustoms (commitNative g))
    else
      (false, { g with failedChecksumCount := (g.failedChecksumCount + 1) % 2 ^ 32 })
  else if g.curTermNumber = 0 then
    let name := cstr g.term
    let st :=
      if name = bytes "GPRMC" ∨ name = bytes "GNRMC" then SentenceType.gprmc
      else if name = bytes "GPGGA" ∨ name = bytes "GNGGA" then SentenceType.gpgga
      else SentenceType.other
    (false, { g with curSentenceType := st,
                     customCandidates := scanCandidates g.customElts name })
  else
    let txt := cstr g.term
    let g :=
      if g.curSentenceType ≠ SentenceType.other ∧ g.term.getD 0 0 ≠ 0 then
        dispatchNative g txt
      else g
    (false, setCustoms g txt)

/-- The parity adjustment encode applies before running the end-of-term
handler: the field separator is folded into the checksum, the other
delimiters are not. -/
def parityAfterDelim (p c : Nat) : Nat := if c = 44 then p ^^^ 44 else p

/-- The shared delimiter tail of encode: NUL-terminate the term and run the
handler when the offset is in range, then advance the term counter, reset
the offset and record whether the next term is the checksum text. -/
def termEnd (g : TinyGPSPlus) (c : Nat) : Bool × TinyGPSPlus :=
  let r :=
    if g.curTermOffset < 15 then
      endOfTermHandler { g with term := g.term.set g.curTermOffset 0 }
    else (false, g)
  (r.1, { r.2 with curTermNumber := (r.2.curTermNumber + 1) % 256,
                   curTermOffset := 0,
                   isChecksumTerm := c = 42 })

/-- TinyGPSPlus::encode: process one character. -/
def encode (g0 : TinyGPSPlus) (c0 : Nat) : Bool × TinyGPSPlus :=
  let c := c0 % 256
  let g := { g0 with encodedCharCount := (g0.encodedCharCount + 1) % 2 ^ 32 }
  if c = 44 ∨ c = 13 ∨ c = 10 ∨ c = 42 then
    termEnd { g with parity := parityAfterDelim g.parity c } c
  else if c = 36 then
    (false, { g with curTermNumber := 0, curTermOffset := 0, parity := 0,
                     curSentenceType := .other, isChecksumTerm := false,
                     sentenceHasFix := false })
  else
    let g :=
      if g.curTermOffset < 14 then
        { g with term := g.term.set g.curTermOffset c,
                 curTermOffset := g.curTermOffset + 1 }
      else g
    (false, if g.isChecksumTerm then g else { g with parity := g.parity ^^^ c })

/-- Feed a whole character list; the boolean is the return value of the
last encode call (false for the empty list). -/
def encodeAll (g : TinyGPSPlus) (l : List Nat) : Bool × TinyGPSPlus :=
  l.foldl (fun p c => encode p.2 c) (false, g)

def feedAll (g : TinyGPSPlus) (l : List Nat) : TinyGPSPlus := (encodeAll g l).2

/-! Observation extractors used by the frame claims. -/

/-- Everything checksum-gated commit publishes for the native containers:
committed values, valid flags and commit timestamps. -/
def committedNative (g : TinyGPSPlus) :
    (RawDegrees × RawDegrees × Bool × Nat) × (Nat × Bool × Nat) × (Nat × Bool × Nat)
      × (Int × Bool × Nat) × (Int × Bool × Nat) × (Int × Bool × Nat)
      × (Int × Bool × Nat) × (Nat × Bool × Nat) :=
  ((g.location.rawLatData, g.location.rawLngData, g.location.valid, g.location.lastCommitTime),
   (g.date.date, g.date.valid, g.date.lastCommitTime),
   (g.time.time, g.time.valid, g.time.lastCommitTime),
   (g.speed.val, g.speed.valid, g.speed.lastCommitTime),
   (g.course.val, g.course.valid, g.course.lastCommitTime),
   (g.altitude.val, g.altitude.valid, g.altitude.lastCommitTime),
   (g.hdop.val, g.hdop.valid, g.hdop.lastCommitTime),
   (g.satellites.val, g.satellites.valid, g.satellites.lastCommitTime))

/-- The committed (externally visible) part of a custom entry. -/
def committedCustom (e : TinyGPSCustom) : List Nat × Bool × Bool × Nat :=
  (e.buffer, e.valid, e.updated, e.lastCommitTime)

/-- The committed part of the whole parser: native containers plus the
committed parts of every custom entry. -/
def committedState (g : TinyGPSPlus) :=
  (committedNative g, g.customElts.map committedCustom)

/-- The updated flags of the eight native containers. -/
def updatedFlags (g : TinyGPSPlus) :
    Bool × Bool × Bool × Bool × Bool × Bool × Bool × Bool :=
  (g.location.updated, g.date.updated, g.time.updated, g.speed.updated,
   g.course.updated, g.altitude.updated, g.hdop.updated, g.satellites.updated)

/-- The staged (not yet committed) values of the native containers,
including the staged hemisphere sign flags inside the raw angles, plus the
sentence fix flag. -/
def stagedNative (g : TinyGPSPlus) :
    RawDegrees × RawDegrees × Nat × Nat × Int × Int × Int × Int × Nat × Bool :=
  (g.location.rawNewLatData, g.location.rawNewLngData, g.date.newDate,
   g.time.newTime, g.speed.newval, g.course.newval, g.altitude.newval,
   g.hdop.newval, g.satellites.newval, g.sentenceHasFix)

/-- The three checksum-related statistics counters. -/
def checksumCounters (g : TinyGPSPlus) : Nat × Nat × Nat :=
  (g.passedChecksumCount, g.failedChecksumCount, g.sentencesWithFixCount)

/-! Claim-side definitions, written from the words of the specification
and the claims; each is compared against the source-derived definitions
in the theorems below. -/

/-- The claimed checksum coverage: exclusive-or of all characters fed
between the sentence-start marker and the checksum introducer, with
carriage return and line feed excluded. -/
def xorBetween (body : List Nat) : Nat :=
  body.foldl (fun a c => if c % 256 = 13 ∨ c % 256 = 10 then a else a ^^^ (c % 256)) 0

/-- Index of the first entry with exactly the given sentence name. -/
def firstEqIdx (name : List Nat) : List TinyGPSCustom → Option Nat
  | [] => none
  | e :: es =>
    if e.sentenceName = name then some 0 else (firstEqIdx name es).map (· + 1)

/-- The registry order of the ordering-invariant claim: ascending by
sentence name, and ascending by term number on a name tie. -/
def entryLe (a b : TinyGPSCustom) : Prop :=
  strcmpB a.sentenceName b.sentenceName < 0 ∨
    (strcmpB a.sentenceName b.sentenceName = 0 ∧ a.termNumber ≤ b.termNumber)

instance (a b : TinyGPSCustom) : Decidable (entryLe a b) := by
  unfold entryLe; infer_instance

/-- x is strictly greater than e in the registry order: the insertion loop
of insertCustom stops in front of the first such x. -/
def entryGt (x e : TinyGPSCustom) : Prop :=
  strcmpB e.sentenceName x.sentenceName < 0 ∨
    (strcmpB e.sentenceName x.sentenceName = 0 ∧ e.termNumber < x.termNumber)

instance (x e : TinyGPSCustom) : Decidable (entryGt x e) := by
  unfold entryGt; infer_instance

/-- The part of a text after its optional leading minus sign. -/
def afterMinus (t : List Nat) : List Nat :=
  match t with
  | 45 :: rest => rest
  | _ => t

/-- The fixed-point decimal formula exactly as the claim words it: 100
times the integer part plus 10 times the first digit after the decimal
point plus the second digit after the decimal point, negated on a leading
minus, absent pieces contributing zero. -/
def claimedDecimal (t : List Nat) : Int :=
  let neg := t.getD 0 0 = 45
  let t1 := afterMinus t
  let ipart : Int := (natOfDigits (t1.takeWhile isDigitB) : Int)
  let t2 := t1.dropWhile isDigitB
  let frac : Int :=
    match t2 with
    | 46 :: d1 :: rest =>
      if isDigitB d1 then
        10 * ((d1 : Int) - 48) +
          (match rest with
           | d2 :: _ => if isDigitB d2 then (d2 : Int) - 48 else 0
           | [] => 0)
      else 0
    | _ => 0
  let v := 100 * ipart + frac
  if neg then -v else v

/-- The quantity T of the degrees/minutes claim: whole minutes (leading
integer mod 100) times 10^7, plus the fractional digits accumulated with a
multiplier that starts at 10^7 and is divided by 10 per digit. -/
def claimTenMillionths (ds fs : List Nat) : Nat :=
  (natOfDigits ds % 100) * 10000000 + fracFold fs 0 10000000

/-- The observable part of the parser a failed sentence must leave alone:
the committed state, the updated flags and the checksum counters. -/
def obs (g : TinyGPSPlus) :=
  (committedState g, updatedFlags g, checksumCounters g)

/-- A sample custom entry with stale staged text, used to exercise the
commit-run behaviour on a concrete state. -/
def w10entry : TinyGPSCustom := (mkCustom (bytes "GPGSA") 99).set (bytes "OLD")

/-- A concrete parser state sitting right at a checksum comparison that
succeeds (the all-zero term buffer reads back checksum value 208), with one
registered candidate whose field index 99 exceeds anything the sentence
held. -/
def w10gps : TinyGPSPlus :=
  { gpsInit with isChecksumTerm := true, parity := 208,
                 customElts := [w10entry], customCandidates := some 0 }

/-! Order theory for the strcmp-based registry order. -/

theorem strcmpB_antisymm (a : List Nat) : ∀ b, strcmpB a b = -strcmpB b a := by
  induction a with
  | nil =>
    intro b
    cases b <;> simp [strcmpB]
  | cons a0 as ih =>
    intro b
    cases b with
    | nil => simp [strcmpB]
    | cons b0 bs =>
      by_cases h : a0 = b0
      · subst h
        simp [strcmpB, ih bs]
      · have h' : b0 ≠ a0 := fun hc => h hc.symm
        simp only [strcmpB, if_neg h, if_neg h']
        omega

theorem strcmpB_refl (a : List Nat) : strcmpB a a = 0 := by
  induction a with
  | nil => rfl
  | cons a0 as ih => simp [strcmpB, ih]

theorem strcmpB_lt_trans : ∀ b a c : List Nat,
    strcmpB a b < 0 → strcmpB b c < 0 → strcmpB a c < 0 := by
  intro b
  induction b with
  | nil =>
    intro a c h1 _
    cases a with
    | nil => simp [strcmpB] at h1
    | cons a0 as => simp only [strcmpB] at h1; omega
  | cons b0 bs ih =>
    intro a c h1 h2
    cases c with
    | nil => simp only [strcmpB] at h2; omega
    | cons c0 cs =>
      cases a with
      | nil =>
        simp only [strcmpB] at h1 ⊢
        by_cases hbc : b0 = c0
        · subst hbc; omega
        · simp only [strcmpB, if_neg hbc] at h2
          omega
      | cons a0 as =>
        simp only [strcmpB] at h1 h2 ⊢
        by_cases hab : a0 = b0
        · subst hab
          by_cases hbc : a0 = c0
          · subst hbc
            simp only [if_pos rfl] at h1 h2 ⊢
            exact ih as cs h1 h2
          · simp only [if_pos rfl] at h1
            simp only [if_neg hbc] at h2 ⊢
            omega
        · by_cases hbc : b0 = c0
          · subst hbc
            simp only [if_neg hab] at h1 ⊢
            omega
          · simp only [if_neg hab] at h1
            simp only [if_neg hbc] at h2
            by_cases hac : a0 = c0
            · omega
            · simp only [if_neg hac]
              omega

theorem strcmpB_eq_iff {a : List Nat} : ∀ {b : List Nat},
    0 ∉ a → 0 ∉ b → (strcmpB a b = 0 ↔ a = b) := by
  induction a with
  | nil =>
    intro b _ hb
    cases b with
    | nil => simp [strcmpB]
    | cons b0 bs =>
      simp only [strcmpB]
      constructor
      · intro h
        exfalso
        apply hb
        have : b0 = 0 := by omega
        simp [this]
      · intro h
        simp at h
  | cons a0 as ih =>
    intro b ha hb
    cases b with
    | nil =>
      simp only [strcmpB]
      constructor
      · intro h
        exfalso
        apply ha
        have : a0 = 0 := by omega
        simp [this]
      · intro h
        simp at h
    | cons b0 bs =>
      by_cases h : a0 = b0
      · subst h
        have hih := ih (fun hm => ha (List.mem_cons_of_mem _ hm))
          (fun hm => hb (List.mem_cons_of_mem _ hm))
        simp [strcmpB, hih]
      · simp only [strcmpB, if_neg h]
        constructor
        · intro hc
          exfalso
          apply h
          omega
        · intro hc
          cases hc
          simp at h

theorem entryLe_of_entryGt {x e : TinyGPSCustom} (h : entryGt x e) : entryLe e x := by
  rcases h with h | ⟨h1, h2⟩
  · exact Or.inl h
  · exact Or.inr ⟨h1, le_of_lt h2⟩

theorem entryLe_of_not_entryGt {x e : TinyGPSCustom} (h : ¬ entryGt x e) : entryLe x e := by
  unfold entryGt at h
  push_neg at h
  obtain ⟨h1, h2⟩ := h
  have ha := strcmpB_antisymm e.sentenceName x.sentenceName
  by_cases hz : strcmpB e.sentenceName x.sentenceName = 0
  · exact Or.inr ⟨by omega, h2 hz⟩
  · exact Or.inl (by omega)

theorem entryLe_trans {a b c : TinyGPSCustom}
    (hza : 0 ∉ a.sentenceName) (hzb : 0 ∉ b.sentenceName) (hzc : 0 ∉ c.sentenceName)
    (h1 : entryLe a b) (h2 : entryLe b c) : entryLe a c := by
  rcases h1 with h1 | ⟨h1, h1t⟩
  · rcases h2 with h2 | ⟨h2, _⟩
    · exact Or.inl (strcmpB_lt_trans _ _ _ h1 h2)
    · have : b.sentenceName = c.sentenceName := (strcmpB_eq_iff hzb hzc).mp h2
      exact Or.inl (this ▸ h1)
  · have hab : a.sentenceName = b.sentenceName := (strcmpB_eq_iff hza hzb).mp h1
    rcases h2 with h2 | ⟨h2, h2t⟩
    · exact Or.inl (hab ▸ h2)
    · exact Or.inr ⟨hab ▸ h2, le_trans h1t h2t⟩

theorem insertCustom_shape (e : TinyGPSCustom) (l : List TinyGPSCustom) :
    insertCustom e l =
      l.takeWhile (fun x => !decide (entryGt x e)) ++
        e :: l.dropWhile (fun x => !decide (entryGt x e)) := by
  induction l with
  | nil => rfl
  | cons x xs ih =>
    by_cases h : entryGt x e
    · have hc : strcmpB e.sentenceName x.sentenceName < 0 ∨
          (strcmpB e.sentenceName x.sentenceName = 0 ∧ e.termNumber < x.termNumber) := h
      simp [insertCustom, hc, List.takeWhile_cons, List.dropWhile_cons, h]
    · have hc : ¬ (strcmpB e.sentenceName x.sentenceName < 0 ∨
          (strcmpB e.sentenceName x.sentenceName = 0 ∧ e.termNumber < x.termNumber)) := h
      simp [insertCustom, hc, List.takeWhile_cons, List.dropWhile_cons, h, ih]

theorem mem_insertCustom {y e : TinyGPSCustom} {l : List TinyGPSCustom} :
    y ∈ insertCustom e l ↔ y = e ∨ y ∈ l := by
  induction l with
  | nil => simp [insertCustom]
  | cons x xs ih =>
    by_cases h : entryGt x e
    · have hc : strcmpB e.sentenceName x.sentenceName < 0 ∨
          (strcmpB e.sentenceName x.sentenceName = 0 ∧ e.termNumber < x.termNumber) := h
      simp only [insertCustom, if_pos hc, List.mem_cons]
    · have hc : ¬ (strcmpB e.sentenceName x.sentenceName < 0 ∨
          (strcmpB e.sentenceName x.sentenceName = 0 ∧ e.termNumber < x.termNumber)) := h
      simp only [insertCustom, if_neg hc, List.mem_cons, ih]
      tauto

theorem pairwise_insertCustom {l : List TinyGPSCustom} {e : TinyGPSCustom}
    (hz : ∀ x ∈ l, 0 ∉ x.sentenceName) (hze : 0 ∉ e.sentenceName)
    (h : l.Pairwise entryLe) : (insertCustom e l).Pairwise entryLe := by
  induction l with
  | nil => simp [insertCustom]
  | cons x xs ih =>
    rw [List.pairwise_cons] at h
    obtain ⟨hx, hxs⟩ := h
    by_cases hgt : entryGt x e
    · have hc : strcmpB e.sentenceName x.sentenceName < 0 ∨
          (strcmpB e.sentenceName x.sentenceName = 0 ∧ e.termNumber < x.termNumber) := hgt
      have hex : entryLe e x := entryLe_of_entryGt hgt
      simp only [insertCustom, if_pos hc]
      rw [List.pairwise_cons]
      refine ⟨?_, List.pairwise_cons.mpr ⟨hx, hxs⟩⟩
      intro y hy
      rcases List.mem_cons.mp hy with hy | hy
      · exact hy ▸ hex
      · exact entryLe_trans hze (hz x (List.mem_cons_self _ _))
          (hz y (List.mem_cons_of_mem _ hy)) hex (hx y hy)
    · have hc : ¬ (strcmpB e.sentenceName x.sentenceName < 0 ∨
          (strcmpB e.sentenceName x.sentenceName = 0 ∧ e.termNumber < x.termNumber)) := hgt
      simp only [insertCustom, if_neg hc]
      rw [List.pairwise_cons]
      constructor
      · intro y hy
        rcases mem_insertCustom.mp hy with hy | hy
        · exact hy ▸ entryLe_of_not_entryGt hgt
        · exact hx y hy
      · exact ih (fun a ha => hz a (List.mem_cons_of_mem _ ha)) hxs

theorem firstEqIdx_eq_none {name : List Nat} {l : List TinyGPSCustom}
    (h : ∀ x ∈ l, x.sentenceName ≠ name) : firstEqIdx name l = none := by
  induction l with
  | nil => rfl
  | cons x xs ih =>
    have hx := h x (List.mem_cons_self _ _)
    simp only [firstEqIdx, if_neg hx]
    rw [ih (fun a ha => h a (List.mem_cons_of_mem _ ha))]
    rfl

theorem scanFrom_eq_firstEqIdx {elts : List TinyGPSCustom} {name : List Nat}
    (hs : elts.Pairwise entryLe) (hz : ∀ e ∈ elts, 0 ∉ e.sentenceName)
    (hzn : 0 ∉ name) : scanFrom elts name = firstEqIdx name elts := by
  induction elts with
  | nil => rfl
  | cons e es ih =>
    rw [List.pairwise_cons] at hs
    obtain ⟨he, hes⟩ := hs
    have hze : 0 ∉ e.sentenceName := hz e (List.mem_cons_self _ _)
    rcases lt_trichotomy (strcmpB e.sentenceName name) 0 with hlt | heq | hgt
    · have hne : e.sentenceName ≠ name := by
        intro hcontra
        rw [(strcmpB_eq_iff hze hzn).mpr hcontra] at hlt
        omega
      simp only [scanFrom, if_pos hlt, firstEqIdx, if_neg hne]
      rw [ih hes (fun a ha => hz a (List.mem_cons_of_mem _ ha))]
    · have hne : e.sentenceName = name := (strcmpB_eq_iff hze hzn).mp heq
      simp only [scanFrom, firstEqIdx, if_pos hne]
      rw [if_neg (by omega), if_neg (by omega)]
    · have hne : e.sentenceName ≠ name := by
        intro hcontra
        rw [(strcmpB_eq_iff hze hzn).mpr hcontra] at hgt
        omega
      have hnone : firstEqIdx name es = none := by
        apply firstEqIdx_eq_none
        intro x hx hxeq
        rcases he x hx with hlt2 | ⟨heq2, _⟩
        · rw [hxeq] at hlt2
          omega
        · rw [hxeq] at heq2
          omega
      simp only [scanFrom, firstEqIdx, if_neg hne]
      rw [if_neg (by omega), if_pos hgt, hnone]
      rfl

theorem commitCandidatesRun_eq (now : Nat) (fn : List Nat) (l : List TinyGPSCustom) :
    commitCandidatesRun now fn l =
      (l.takeWhile fun p => decide (strcmpB p.sentenceName fn = 0)).map
          (fun p => p.commit now) ++
        l.dropWhile fun p => decide (strcmpB p.sentenceName fn = 0) := by
  induction l with
  | nil => rfl
  | cons p ps ih =>
    by_cases h : strcmpB p.sentenceName fn = 0
    · simp [commitCandidatesRun, h, List.takeWhile_cons, List.dropWhile_cons, ih]
    · simp [commitCandidatesRun, h, List.takeWhile_cons, List.dropWhile_cons]

theorem setCandidatesRun_map_committed (fn : List Nat) (tn : Nat) (txt : List Nat)
    (l : List TinyGPSCustom) :
    (setCandidatesRun fn tn txt l).map committedCustom = l.map committedCustom := by
  induction l with
  | nil => rfl
  | cons p ps ih =>
    by_cases h : strcmpB p.sentenceName fn = 0 ∧ p.termNumber ≤ (tn : Int)
    · by_cases h2 : p.termNumber = (tn : Int) <;>
        simp [setCandidatesRun, h, h2, ih, TinyGPSCustom.set, committedCustom]
    · simp [setCandidatesRun, h]

/-! Frame lemmas for the tokenizer: which parts of the state each piece of
the machine can touch. -/

theorem dispatchNative_frame (g : TinyGPSPlus) (txt : List Nat) :
    obs (dispatchNative g txt) = obs g ∧
    (dispatchNative g txt).customElts = g.customElts ∧
    (dispatchNative g txt).customCandidates = g.customCandidates ∧
    (dispatchNative g txt).parity = g.parity ∧
    (dispatchNative g txt).isChecksumTerm = g.isChecksumTerm ∧
    (dispatchNative g txt).curTermNumber = g.curTermNumber ∧
    (dispatchNative g txt).curTermOffset = g.curTermOffset ∧
    (dispatchNative g txt).term = g.term ∧
    (dispatchNative g txt).curSentenceType = g.curSentenceType ∧
    (dispatchNative g txt).now = g.now := by
  unfold dispatchNative
  cases dispatchKey ((sentenceCode g.curSentenceType) <<< 5 ||| g.curTermNumber) <;>
    exact ⟨rfl, rfl, rfl, rfl, rfl, rfl, rfl, rfl, rfl, rfl⟩

theorem setCustoms_frame (g : TinyGPSPlus) (txt : List Nat) :
    obs (setCustoms g txt) = obs g ∧
    (setCustoms g txt).customCandidates = g.customCandidates ∧
    (setCustoms g txt).parity = g.parity ∧
    (setCustoms g txt).isChecksumTerm = g.isChecksumTerm ∧
    (setCustoms g txt).curTermNumber = g.curTermNumber ∧
    (setCustoms g txt).curTermOffset = g.curTermOffset ∧
    (setCustoms g txt).term = g.term ∧
    (setCustoms g txt).curSentenceType = g.curSentenceType ∧
    (setCustoms g txt).sentenceHasFix = g.sentenceHasFix ∧
    (setCustoms g txt).now = g.now := by
  cases hc : g.customCandidates with
  | none => simp [setCustoms, hc]
  | some i =>
    cases hi : g.customElts[i]? with
    | none => simp [setCustoms, hc, hi]
    | some fc =>
      constructor
      · simp only [setCustoms, hc, hi]
        simp only [obs, committedState, committedNative, updatedFlags, checksumCounters]
        simp only [List.map_append, setCandidatesRun_map_committed]
        rw [← List.map_append, List.take_append_drop]
      · simp [setCustoms, hc, hi]

theorem commitCustoms_native_frame (g : TinyGPSPlus) :
    (commitCustoms g).location = g.location ∧
    (commitCustoms g).date = g.date ∧
    (commitCustoms g).time = g.time ∧
    (commitCustoms g).speed = g.speed ∧
    (commitCustoms g).course = g.course ∧
    (commitCustoms g).altitude = g.altitude ∧
    (commitCustoms g).hdop = g.hdop ∧
    (commitCustoms g).satellites = g.satellites ∧
    (commitCustoms g).passedChecksumCount = g.passedChecksumCount ∧
    (commitCustoms g).failedChecksumCount = g.failedChecksumCount ∧
    (commitCustoms g).sentencesWithFixCount = g.sentencesWithFixCount := by
  cases hc : g.customCandidates with
  | none => simp [commitCustoms, hc]
  | some i =>
    cases hi : g.customElts[i]? with
    | none => simp [commitCustoms, hc, hi]
    | some fc => simp [commitCustoms, hc, hi]

theorem endOfTermHandler_not_checksum (g : TinyGPSPlus)
    (h : g.isChecksumTerm = false) :
    (endOfTermHandler g).1 = false ∧
    obs (endOfTermHandler g).2 = obs g ∧
    (endOfTermHandler g).2.isChecksumTerm = false ∧
    (endOfTermHandler g).2.curTermNumber = g.curTermNumber ∧
    (endOfTermHandler g).2.curTermOffset = g.curTermOffset ∧
    (endOfTermHandler g).2.parity = g.parity ∧
    (endOfTermHandler g).2.now = g.now := by
  by_cases h0 : g.curTermNumber = 0
  · simp [endOfTermHandler, h, h0, obs, committedState, committedNative,
      updatedFlags, checksumCounters]
  · simp only [endOfTermHandler, h, Bool.false_eq_true, if_false, if_neg h0]
    by_cases hguard : g.curSentenceType ≠ SentenceType.other ∧ g.term.getD 0 0 ≠ 0
    · simp only [if_pos hguard]
      obtain ⟨hd0, hd1, hd2, hd3, hd4, hd5, hd6, hd7, hd8, hd9⟩ :=
        dispatchNative_frame g (cstr g.term)
      obtain ⟨hs0, hs1, hs2, hs3, hs4, hs5, hs6, hs7, hs8, hs9⟩ :=
        setCustoms_frame (dispatchNative g (cstr g.term)) (cstr g.term)
      refine ⟨trivial, ?_, ?_, ?_, ?_, ?_, ?_⟩
      · rw [hs0, hd0]
      · rw [hs3, hd4, h]
      · rw [hs4, hd5]
      · rw [hs5, hd6]
      · rw [hs2, hd3]
      · rw [hs9, hd9]
    · simp only [if_neg hguard]
      obtain ⟨hs0, hs1, hs2, hs3, hs4, hs5, hs6, hs7, hs8, hs9⟩ :=
        setCustoms_frame g (cstr g.term)
      exact ⟨trivial, hs0, by rw [hs3, h], hs4, hs5, hs2, hs9⟩

theorem endOfTermHandler_fail (g : TinyGPSPlus) (hict : g.isChecksumTerm = true)
    (hne : csVal g.term ≠ g.parity) :
    endOfTermHandler g =
      (false, { g with failedChecksumCount := (g.failedChecksumCount + 1) % 2 ^ 32 }) := by
  simp [endOfTermHandler, hict, hne]

/-- Reduction of encode on a delimiter character. -/
theorem encode_delim (g : TinyGPSPlus) (c0 : Nat)
    (hd : c0 % 256 = 44 ∨ c0 % 256 = 13 ∨ c0 % 256 = 10 ∨ c0 % 256 = 42)
    (hoff : g.curTermOffset < 15) :
    encode g c0 =
      ((endOfTermHandler
          { g with encodedCharCount := (g.encodedCharCount + 1) % 2 ^ 32,
                   parity := parityAfterDelim g.parity (c0 % 256),
                   term := g.term.set g.curTermOffset 0 }).1,
       { (endOfTermHandler
          { g with encodedCharCount := (g.encodedCharCount + 1) % 2 ^ 32,
                   parity := parityAfterDelim g.parity (c0 % 256),
                   term := g.term.set g.curTermOffset 0 }).2 with
         curTermNumber :=
           ((endOfTermHandler
             { g with encodedCharCount := (g.encodedCharCount + 1) % 2 ^ 32,
                      parity := parityAfterDelim g.parity (c0 % 256),
                      term := g.term.set g.curTermOffset 0 }).2.curTermNumber + 1) % 256,
         curTermOffset := 0,
         isChecksumTerm := c0 % 256 = 42 }) := by
  unfold encode termEnd
  dsimp only
  rw [if_pos hd, if_pos hoff]

/-- Reduction of encode on an ordinary (non-delimiter, non-start) character. -/
theorem encode_ordinary (g : TinyGPSPlus) (c0 : Nat)
    (hd : ¬ (c0 % 256 = 44 ∨ c0 % 256 = 13 ∨ c0 % 256 = 10 ∨ c0 % 256 = 42))
    (hs : c0 % 256 ≠ 36) :
    encode g c0 =
      (false,
       let g1 := { g with encodedCharCount := (g.encodedCharCount + 1) % 2 ^ 32 }
       let g2 :=
         if g1.curTermOffset < 14 then
           { g1 with term := g1.term.set g1.curTermOffset (c0 % 256),
                     curTermOffset := g1.curTermOffset + 1 }
         else g1
       if g2.isChecksumTerm then g2 else { g2 with parity := g2.parity ^^^ (c0 % 256) }) := by
  unfold encode
  dsimp only
  rw [if_neg hd, if_neg hs]

/-- Reduction of encode on the sentence-start marker. -/
theorem encode_dollar (g : TinyGPSPlus) (c0 : Nat) (hs : c0 % 256 = 36) :
    encode g c0 =
      (false, { g with encodedCharCount := (g.encodedCharCount + 1) % 2 ^ 32,
                       curTermNumber := 0, curTermOffset := 0, parity := 0,
                       curSentenceType := .other, isChecksumTerm := false,
                       sentenceHasFix := false }) := by
  unfold encode
  dsimp only
  rw [hs]
  norm_num

/-- A failed checksum comparison: no commit, no updated flag, the failure
counter stepped, the other counters untouched. -/
theorem encode_checksum_fail (g : TinyGPSPlus) (c0 : Nat)
    (hd : c0 % 256 = 44 ∨ c0 % 256 = 13 ∨ c0 % 256 = 10 ∨ c0 % 256 = 42)
    (hict : g.isChecksumTerm = true) (hoff : g.curTermOffset < 15)
    (hne : csVal (g.term.set g.curTermOffset 0) ≠ parityAfterDelim g.parity (c0 % 256)) :
    (encode g c0).1 = false ∧
    committedState (encode g c0).2 = committedState g ∧
    updatedFlags (encode g c0).2 = updatedFlags g ∧
    (encode g c0).2.passedChecksumCount = g.passedChecksumCount ∧
    (encode g c0).2.sentencesWithFixCount = g.sentencesWithFixCount ∧
    (encode g c0).2.failedChecksumCount = (g.failedChecksumCount + 1) % 2 ^ 32 := by
  rw [encode_delim g c0 hd hoff]
  rw [endOfTermHandler_fail _ (by exact hict) (by exact hne)]
  exact ⟨rfl, rfl, rfl, rfl, rfl, rfl⟩

/-- One character that is not the checksum introducer, fed while no
checksum term is pending, can never commit, keeps the machine out of the
checksum term, and folds into the parity exactly the characters the wire
checksum covers. -/
theorem encode_step_survey (g : TinyGPSPlus) (c0 : Nat)
    (hict : g.isChecksumTerm = false) (h42 : c0 % 256 ≠ 42) (h36 : c0 % 256 ≠ 36) :
    obs (encode g c0).2 = obs g ∧
    (encode g c0).2.isChecksumTerm = false ∧
    (encode g c0).2.parity =
      (if c0 % 256 = 13 ∨ c0 % 256 = 10 then g.parity else g.parity ^^^ (c0 % 256)) ∧
    (g.curTermOffset ≤ 14 → (encode g c0).2.curTermOffset ≤ 14) := by
  by_cases hd : c0 % 256 = 44 ∨ c0 % 256 = 13 ∨ c0 % 256 = 10 ∨ c0 % 256 = 42
  · have hpar : parityAfterDelim g.parity (c0 % 256) =
        (if c0 % 256 = 13 ∨ c0 % 256 = 10 then g.parity
         else g.parity ^^^ (c0 % 256)) := by
      rcases hd with h | h | h | h
      · simp [parityAfterDelim, h]
      · simp [parityAfterDelim, h]
      · simp [parityAfterDelim, h]
      · exact absurd h h42
    by_cases hoff : g.curTermOffset < 15
    · rw [encode_delim g c0 hd hoff]
      obtain ⟨e1, e2, e3, e4, e5, e6, e7⟩ := endOfTermHandler_not_checksum
        { g with encodedCharCount := (g.encodedCharCount + 1) % 2 ^ 32,
                 parity := parityAfterDelim g.parity (c0 % 256),
                 term := g.term.set g.curTermOffset 0 } (by exact hict)
      dsimp only
      refine ⟨e2.trans rfl, by simp [h42], ?_, fun _ => by norm_num⟩
      rw [e6]
      exact hpar
    · unfold encode termEnd
      dsimp only
      rw [if_pos hd, if_neg (by exact hoff)]
      dsimp only
      exact ⟨rfl, by simp [h42], hpar, fun _ => by norm_num⟩
  · rw [encode_ordinary g c0 hd h36]
    have h13 : ¬ (c0 % 256 = 13 ∨ c0 % 256 = 10) := fun h => hd (by tauto)
    by_cases hoff : g.curTermOffset < 14
    · simp only [if_pos hoff, hict, Bool.false_eq_true, if_false]
      exact ⟨rfl, trivial, by simp [h13], fun _ => by omega⟩
    · simp only [if_neg hoff, hict, Bool.false_eq_true, if_false]
      exact ⟨rfl, trivial, by simp [h13], fun hh => by omega⟩

theorem encode_ordinary_obs (g : TinyGPSPlus) (c0 : Nat)
    (hd : ¬ (c0 % 256 = 44 ∨ c0 % 256 = 13 ∨ c0 % 256 = 10 ∨ c0 % 256 = 42))
    (h36 : c0 % 256 ≠ 36) : obs (encode g c0).2 = obs g := by
  rw [encode_ordinary g c0 hd h36]
  dsimp only
  by_cases hoff : g.curTermOffset < 14 <;> by_cases hict : g.isChecksumTerm <;>
    simp only [hoff, hict, if_true, if_false, Bool.false_eq_true] <;> rfl

theorem encode_ordinary_ict (g : TinyGPSPlus) (c0 : Nat)
    (hd : ¬ (c0 % 256 = 44 ∨ c0 % 256 = 13 ∨ c0 % 256 = 10 ∨ c0 % 256 = 42))
    (h36 : c0 % 256 ≠ 36) : (encode g c0).2.isChecksumTerm = g.isChecksumTerm := by
  rw [encode_ordinary g c0 hd h36]
  dsimp only
  by_cases hoff : g.curTermOffset < 14 <;> by_cases hict : g.isChecksumTerm <;>
    simp only [hoff, hict, if_true, if_false, Bool.false_eq_true]

theorem encode_ordinary_parity_ict (g : TinyGPSPlus) (c0 : Nat)
    (hd : ¬ (c0 % 256 = 44 ∨ c0 % 256 = 13 ∨ c0 % 256 = 10 ∨ c0 % 256 = 42))
    (h36 : c0 % 256 ≠ 36) (hict : g.isChecksumTerm = true) :
    (encode g c0).2.parity = g.parity := by
  rw [encode_ordinary g c0 hd h36]
  dsimp only
  by_cases hoff : g.curTermOffset < 14 <;>
    simp only [hoff, hict, if_true, if_false]

theorem encode_ordinary_off (g : TinyGPSPlus) (c0 : Nat)
    (hd : ¬ (c0 % 256 = 44 ∨ c0 % 256 = 13 ∨ c0 % 256 = 10 ∨ c0 % 256 = 42))
    (h36 : c0 % 256 ≠ 36) (h : g.curTermOffset ≤ 14) :
    (encode g c0).2.curTermOffset ≤ 14 := by
  rw [encode_ordinary g c0 hd h36]
  dsimp only
  by_cases hoff : g.curTermOffset < 14 <;> by_cases hict : g.isChecksumTerm <;>
    simp only [hoff, hict, if_true, if_false, Bool.false_eq_true] <;> omega

/-- An ordinary character never touches the observable state, the checksum
flag, or (while the checksum term is pending) the parity. -/
theorem encode_ordinary_survey (g : TinyGPSPlus) (c0 : Nat)
    (hd : ¬ (c0 % 256 = 44 ∨ c0 % 256 = 13 ∨ c0 % 256 = 10 ∨ c0 % 256 = 42))
    (h36 : c0 % 256 ≠ 36) :
    obs (encode g c0).2 = obs g ∧
    (encode g c0).2.isChecksumTerm = g.isChecksumTerm ∧
    (g.isChecksumTerm = true → (encode g c0).2.parity = g.parity) ∧
    (g.curTermOffset ≤ 14 → (encode g c0).2.curTermOffset ≤ 14) :=
  ⟨encode_ordinary_obs g c0 hd h36, encode_ordinary_ict g c0 hd h36,
   encode_ordinary_parity_ict g c0 hd h36, encode_ordinary_off g c0 hd h36⟩

theorem feedAll_nil (g : TinyGPSPlus) : feedAll g [] = g := rfl

theorem feedAll_cons (g : TinyGPSPlus) (c : Nat) (l : List Nat) :
    feedAll g (c :: l) = feedAll (encode g c).2 l := by
  cases l with
  | nil => rfl
  | cons d ds => rfl

theorem feedAll_append (g : TinyGPSPlus) (l1 l2 : List Nat) :
    feedAll g (l1 ++ l2) = feedAll (feedAll g l1) l2 := by
  induction l1 generalizing g with
  | nil => rfl
  | cons c cs ih => rw [List.cons_append, feedAll_cons, feedAll_cons, ih]

theorem foldl_encode_last (p : Bool × TinyGPSPlus) (l : List Nat) (c : Nat) :
    (l ++ [c]).foldl (fun q d => encode q.2 d) p =
      encode ((l.foldl (fun q d => encode q.2 d) p).2) c := by
  induction l generalizing p with
  | nil => rfl
  | cons d ds ih =>
    simp only [List.cons_append, List.foldl_cons]
    exact ih _

theorem encodeAll_last (g : TinyGPSPlus) (l : List Nat) (c : Nat) :
    encodeAll g (l ++ [c]) = encode (feedAll g l) c :=
  foldl_encode_last _ _ _

/-- Feeding any string free of the sentence-start and checksum-introducer
markers while no checksum term is pending: nothing observable changes, the
machine stays out of the checksum term, the parity folds in exactly the
non-line-end characters, and the term offset stays in range. -/
theorem feed_body (g : TinyGPSPlus) (l : List Nat)
    (hict : g.isChecksumTerm = false)
    (hl : ∀ c ∈ l, c % 256 ≠ 36 ∧ c % 256 ≠ 42) :
    obs (feedAll g l) = obs g ∧
    (feedAll g l).isChecksumTerm = false ∧
    (feedAll g l).parity =
      l.foldl (fun a c => if c % 256 = 13 ∨ c % 256 = 10 then a else a ^^^ (c % 256))
        g.parity ∧
    (g.curTermOffset ≤ 14 → (feedAll g l).curTermOffset ≤ 14) := by
  induction l generalizing g with
  | nil => exact ⟨rfl, hict, rfl, fun h => h⟩
  | cons c cs ih =>
    obtain ⟨h36, h42⟩ := hl c (List.mem_cons_self _ _)
    obtain ⟨s1, s2, s3, s4⟩ := encode_step_survey g c hict h42 h36
    obtain ⟨i1, i2, i3, i4⟩ := ih (encode g c).2 s2
      (fun d hd => hl d (List.mem_cons_of_mem _ hd))
    rw [feedAll_cons]
    refine ⟨i1.trans s1, i2, ?_, fun h => i4 (s4 h)⟩
    rw [i3, s3, List.foldl_cons]

/-- Feeding a string of purely ordinary characters: nothing observable
changes, the checksum-term flag is untouched, and while the checksum term
is pending the parity is untouched too. -/
theorem feed_ordinary (g : TinyGPSPlus) (l : List Nat)
    (hl : ∀ c ∈ l, ¬ (c % 256 = 44 ∨ c % 256 = 13 ∨ c % 256 = 10 ∨ c % 256 = 42) ∧
      c % 256 ≠ 36) :
    obs (feedAll g l) = obs g ∧
    (feedAll g l).isChecksumTerm = g.isChecksumTerm ∧
    (g.isChecksumTerm = true → (feedAll g l).parity = g.parity) ∧
    (g.curTermOffset ≤ 14 → (feedAll g l).curTermOffset ≤ 14) := by
  induction l generalizing g with
  | nil => exact ⟨rfl, rfl, fun _ => rfl, fun h => h⟩
  | cons c cs ih =>
    obtain ⟨hdc, h36⟩ := hl c (List.mem_cons_self _ _)
    obtain ⟨s1, s2, s3, s4⟩ := encode_ordinary_survey g c hdc h36
    obtain ⟨i1, i2, i3, i4⟩ := ih (encode g c).2
      (fun d hd => hl d (List.mem_cons_of_mem _ hd))
    rw [feedAll_cons]
    refine ⟨i1.trans s1, i2.trans s2, ?_, fun h => i4 (s4 h)⟩
    intro h
    rw [i3 (by rw [s2, h]), s3 h]

/-! Lemmas about the numeric decoders. -/

theorem digitsVal_eq_foldl_takeWhile :
    ∀ (s : List Nat) (acc : Nat),
      digitsVal s acc = (s.takeWhile isDigitB).foldl (fun a d => a * 10 + (d - 48)) acc := by
  intro s
  induction s with
  | nil => intro acc; rfl
  | cons c cs ih =>
    intro acc
    by_cases h : isDigitB c
    · simp only [digitsVal, h, if_true, List.takeWhile_cons, List.foldl_cons]
      exact ih _
    · simp only [digitsVal, h, if_false, List.takeWhile_cons]
      simp [h]

theorem dropWhile_space_eq_self {s : List Nat}
    (h : ∀ c, s.head? = some c → isSpaceB c = false) :
    s.dropWhile isSpaceB = s := by
  cases s with
  | nil => rfl
  | cons c cs => simp [List.dropWhile_cons, h c rfl]

/-- When the text does not begin with whitespace or an explicit sign, atol
is just the value of the maximal leading digit run. -/
theorem atolB_plain {s : List Nat}
    (h : ∀ c, s.head? = some c → isSpaceB c = false ∧ c ≠ 43 ∧ c ≠ 45) :
    atolB s = (natOfDigits (s.takeWhile isDigitB) : Int) := by
  have hdrop : s.dropWhile isSpaceB = s :=
    dropWhile_space_eq_self (fun c hc => (h c hc).1)
  have h43 : s.getD 0 0 ≠ 43 := by
    cases s with
    | nil => simp
    | cons c cs =>
      have := (h c rfl).2.1
      simpa using this
  have h45 : s.getD 0 0 ≠ 45 := by
    cases s with
    | nil => simp
    | cons c cs =>
      have := (h c rfl).2.2
      simpa using this
  unfold atolB
  rw [hdrop, if_neg h43, if_neg h45, digitsVal_eq_foldl_takeWhile]
  rfl

theorem ite_tail_eq_afterMinus (t : List Nat) :
    (if t.getD 0 0 = 45 then t.tail else t) = afterMinus t := by
  cases t with
  | nil => rfl
  | cons c cs =>
    by_cases h : c = 45
    · simp [h, afterMinus]
    · simp only [List.getD_cons_zero, if_neg h]
      cases cs <;> simp [afterMinus, h]

theorem fracFold_shift : ∀ (fs : List Nat) (a m : Nat),
    fracFold fs a m = a + fracFold fs 0 m := by
  intro fs
  induction fs with
  | nil => intro a m; simp [fracFold]
  | cons d ds ih =>
    intro a m
    simp only [fracFold]
    rw [ih (a + (d - 48) * (m / 10)), ih (0 + (d - 48) * (m / 10))]
    omega

/-- The uint32 accumulator of parseDegrees never comes near wrapping: the
whole fold stays below the initial value plus the initial multiplier. -/
theorem fracFold_le : ∀ (fs : List Nat) (a m : Nat),
    (∀ c ∈ fs, isDigitB c = true) → fracFold fs a m ≤ a + m := by
  intro fs
  induction fs with
  | nil => intro a m _; simp [fracFold]
  | cons d ds ih =>
    intro a m hd
    have hdig : isDigitB d = true := hd d (List.mem_cons_self _ _)
    have hle : d ≤ 57 := by
      simp only [isDigitB, decide_eq_true_eq] at hdig
      omega
    simp only [fracFold]
    calc fracFold ds (a + (d - 48) * (m / 10)) (m / 10)
        ≤ a + (d - 48) * (m / 10) + m / 10 :=
          ih _ _ (fun c hc => hd c (List.mem_cons_of_mem _ hc))
      _ ≤ a + m := by
          have h9 : d - 48 ≤ 9 := by omega
          have := Nat.mul_le_mul_right (m / 10) h9
          omega

theorem parseDecimal_eq_claimed (t : List Nat)
    (h : ∀ c, (afterMinus t).head? = some c →
      isSpaceB c = false ∧ c ≠ 43 ∧ c ≠ 45) :
    parseDecimal t = claimedDecimal t := by
  unfold parseDecimal claimedDecimal
  dsimp only
  rw [ite_tail_eq_afterMinus t, atolB_plain h]

/-- Claim C5, counterexample: on the text consisting of a space followed by
the digit 5, the decoder returns 500 while the claimed formula (100 times
the integer part, which is empty, so zero) gives 0: atol skips the leading
whitespace but the fraction scan does not, and the claimed formula has no
whitespace notion at all. -/
theorem claim_C5_counterexample :
    parseDecimal (bytes " 5") = 500 ∧ claimedDecimal (bytes " 5") = 0 ∧
    parseDecimal (bytes " 5") ≠ claimedDecimal (bytes " 5") := by
  decide

/-- Claim C5 (amended): for every input text in which the character
following the optional leading minus sign is not whitespace and not an
explicit sign character, the fixed-point decimal parser returns 100 times
the integer part plus 10 times the first digit after the decimal point
plus the second digit after the decimal point, negated if the text begins
with a minus, absent pieces contributing zero and later fractional digits
ignored; the parser is total, and on the claim's examples it returns
12345, -500 and 60. -/
theorem claim_C5_fixed_point_formula (t : List Nat)
    (h : ∀ c, (afterMinus t).head? = some c →
      isSpaceB c = false ∧ c ≠ 43 ∧ c ≠ 45) :
    parseDecimal t = claimedDecimal t ∧
    parseDecimal (bytes "123.456") = 12345 ∧
    parseDecimal (bytes "-5") = -500 ∧
    parseDecimal (bytes "0.6") = 60 :=
  ⟨parseDecimal_eq_claimed t h, by decide, by decide, by decide⟩

theorem claim_C5_witness :
    parseDecimal (bytes "5.5") = claimedDecimal (bytes "5.5") ∧
    parseDecimal (bytes "123.456") = 12345 ∧
    parseDecimal (bytes "-5") = -500 ∧
    parseDecimal (bytes "0.6") = 60 :=
  claim_C5_fixed_point_formula (bytes "5.5") (by decide)

theorem takeWhile_digits {fs : List Nat} (h : ∀ c ∈ fs, isDigitB c = true) :
    fs.takeWhile isDigitB = fs := by
  induction fs with
  | nil => rfl
  | cons c cs ih =>
    rw [List.takeWhile_cons, if_pos (h c (List.mem_cons_self _ _))]
    rw [ih (fun d hd => h d (List.mem_cons_of_mem _ hd))]

theorem takeWhile_digits_append {ds : List Nat} (r : List Nat)
    (h : ∀ c ∈ ds, isDigitB c = true) :
    (ds ++ 46 :: r).takeWhile isDigitB = ds := by
  induction ds with
  | nil => simp [List.takeWhile_cons, isDigitB]
  | cons c cs ih =>
    rw [List.cons_append, List.takeWhile_cons, if_pos (h c (List.mem_cons_self _ _))]
    rw [ih (fun d hd => h d (List.mem_cons_of_mem _ hd))]

theorem dropWhile_digits_append {ds : List Nat} (r : List Nat)
    (h : ∀ c ∈ ds, isDigitB c = true) :
    (ds ++ 46 :: r).dropWhile isDigitB = 46 :: r := by
  induction ds with
  | nil => simp [List.dropWhile_cons, isDigitB]
  | cons c cs ih =>
    rw [List.cons_append, List.dropWhile_cons, if_pos (h c (List.mem_cons_self _ _))]
    exact ih (fun d hd => h d (List.mem_cons_of_mem _ hd))

theorem dropWhile_digits_self {ds : List Nat} (h : ∀ c ∈ ds, isDigitB c = true) :
    ds.dropWhile isDigitB = [] := by
  induction ds with
  | nil => rfl
  | cons c cs ih =>
    rw [List.dropWhile_cons, if_pos (h c (List.mem_cons_self _ _))]
    exact ih (fun d hd => h d (List.mem_cons_of_mem _ hd))

/-- Claim C6, counterexample: on the text 0086 (whole minutes 86), the
uint32 computation 5*T+1 wraps modulo 2^32, so the decoder produces
1677568 billionths where the claimed exact rational conversion
(5*T+1)/3 = 1433333333 would stand. -/
theorem claim_C6_counterexample :
    (parseDegrees (bytes "0086")).billionths = 1677568 ∧
    (5 * claimTenMillionths (bytes "0086") [] + 1) / 3 = 1433333333 ∧
    (parseDegrees (bytes "0086")).billionths ≠
      (5 * claimTenMillionths (bytes "0086") [] + 1) / 3 := by
  decide

/-- Claim C6 (amended): for every input of the form integer digits
optionally followed by a decimal point and fractional digits, with the
leading integer in range of the 32-bit atol, the degrees/minutes parser
yields degrees = (leading integer / 100) reduced mod 2^16 and
billionths = ((5*T + 1) mod 2^32) / 3, where T is the whole minutes times
10^7 plus the fractional digits accumulated with the shrinking power-of-ten
multiplier (T itself never wraps); the sign flag is always clear.  The
wrap-free claimed formula holds exactly whenever 5*T + 1 < 2^32. -/
theorem claim_C6_degrees_minutes (ds fs t : List Nat)
    (hne : ds ≠ []) (hds : ∀ c ∈ ds, isDigitB c = true)
    (hfs : ∀ c ∈ fs, isDigitB c = true)
    (ht : t = ds ++ 46 :: fs ∨ (t = ds ∧ fs = []))
    (hL : natOfDigits ds < 2 ^ 31) :
    parseDegrees t =
      { deg := (natOfDigits ds / 100) % 2 ^ 16,
        billionths := ((5 * claimTenMillionths ds fs + 1) % 2 ^ 32) / 3,
        negative := false } := by
  have hhead : ∀ c, t.head? = some c → isSpaceB c = false ∧ c ≠ 43 ∧ c ≠ 45 := by
    intro c hc
    have hdig : isDigitB c = true := by
      cases ds with
      | nil => exact absurd rfl hne
      | cons d ds' =>
        have hd : isDigitB d = true := hds d (List.mem_cons_self _ _)
        rcases ht with h1 | ⟨h1, _⟩ <;> rw [h1] at hc <;>
          simp only [List.cons_append, List.head?_cons, Option.some.injEq] at hc <;>
          rw [← hc] <;> exact hd
    simp only [isDigitB, decide_eq_true_eq] at hdig
    constructor
    · simp only [isSpaceB, decide_eq_false_iff_not]
      omega
    · omega
  have htake : t.takeWhile isDigitB = ds := by
    rcases ht with h1 | ⟨h1, _⟩
    · rw [h1]; exact takeWhile_digits_append fs hds
    · rw [h1]; exact takeWhile_digits hds
  have hatol : atolB t = (natOfDigits ds : Int) := by
    rw [atolB_plain hhead, htake]
  have hemod : ((atolB t).emod (2 ^ 32)).toNat = natOfDigits ds := by
    rw [hatol]
    show (((natOfDigits ds : Int)) % (2 ^ 32)).toNat = natOfDigits ds
    omega
  have hdropfrac :
      (match t.dropWhile isDigitB with
        | 46 :: rest => rest.takeWhile isDigitB
        | _ => []) = fs := by
    rcases ht with h1 | ⟨h1, h2⟩
    · rw [h1, dropWhile_digits_append fs hds]
      exact takeWhile_digits hfs
    · rw [h1, dropWhile_digits_self hds, h2]
  unfold parseDegrees
  dsimp only
  rw [hemod, hdropfrac, fracFold_shift]
  rfl

theorem claim_C6_witness :
    parseDegrees (bytes "4807.038") =
      { deg := (natOfDigits (bytes "4807") / 100) % 2 ^ 16,
        billionths :=
          ((5 * claimTenMillionths (bytes "4807") (bytes "038") + 1) % 2 ^ 32) / 3,
        negative := false } :=
  claim_C6_degrees_minutes (bytes "4807") (bytes "038") (bytes "4807.038")
    (by decide) (by decide) (by decide) (Or.inl (by decide)) (by decide)

theorem registerFold_invariant (regs : List (List Nat × Int)) :
    ∀ g : TinyGPSPlus, g.customElts.Pairwise entryLe →
      (∀ x ∈ g.customElts, 0 ∉ x.sentenceName) →
      (∀ r ∈ regs, 0 ∉ r.1) →
      (regs.foldl (fun h r => registerCustom h r.1 r.2) g).customElts.Pairwise entryLe := by
  induction regs with
  | nil => intro g h1 _ _; exact h1
  | cons r rs ih =>
    intro g h1 h2 hz
    rw [List.foldl_cons]
    apply ih
    · exact pairwise_insertCustom h2 (hz r (List.mem_cons_self _ _)) h1
    · intro x hx
      rcases mem_insertCustom.mp hx with hx | hx
      · rw [hx]
        exact hz r (List.mem_cons_self _ _)
      · exact h2 x hx
    · intro q hq
      exact hz q (List.mem_cons_of_mem _ hq)

/-- Claim C7: after any sequence of custom-field registrations the registry
list is sorted ascending by (sentence name, field index), and each single
registration inserts the new entry exactly in front of the first existing
entry that is strictly greater, leaving every existing entry in place in
its relative order (names are NUL-free, being C strings). -/
theorem claim_C7_registry_order (regs : List (List Nat × Int))
    (l : List TinyGPSCustom) (e : TinyGPSCustom)
    (hz : ∀ r ∈ regs, 0 ∉ r.1) :
    ((regs.foldl (fun g r => registerCustom g r.1 r.2) gpsInit).customElts).Pairwise
      entryLe ∧
    insertCustom e l =
      l.takeWhile (fun x => !decide (entryGt x e)) ++
        e :: l.dropWhile (fun x => !decide (entryGt x e)) :=
  ⟨registerFold_invariant regs gpsInit (by simp [gpsInit]) (by simp [gpsInit]) hz,
   insertCustom_shape e l⟩

theorem claim_C7_witness :
    (([((bytes "GPGSA", (3 : Int))), ((bytes "GPGSA", (1 : Int))),
       ((bytes "GNGSA", (7 : Int)))].foldl
        (fun g r => registerCustom g r.1 r.2) gpsInit).customElts).Pairwise
      entryLe ∧
    insertCustom (mkCustom (bytes "GPGSA") 2)
        [mkCustom (bytes "GNGSA") 1, mkCustom (bytes "GPGSA") 5] =
      [mkCustom (bytes "GNGSA") 1, mkCustom (bytes "GPGSA") 5].takeWhile
          (fun x => !decide (entryGt x (mkCustom (bytes "GPGSA") 2))) ++
        mkCustom (bytes "GPGSA") 2 ::
          [mkCustom (bytes "GNGSA") 1, mkCustom (bytes "GPGSA") 5].dropWhile
            (fun x => !decide (entryGt x (mkCustom (bytes "GPGSA") 2))) := by
  have h := claim_C7_registry_order
    [((bytes "GPGSA", (3 : Int))), ((bytes "GPGSA", (1 : Int))),
     ((bytes "GNGSA", (7 : Int)))]
    [mkCustom (bytes "GNGSA") 1, mkCustom (bytes "GPGSA") 5]
    (mkCustom (bytes "GPGSA") 2) (by decide)
  exact ⟨h.1, by rw [h.2]⟩

/-- Claim C8: when field index 0 (the sentence name) is terminated, the
handler caches a pointer to the first registry entry whose name equals the
sentence name, or clears it when the scan stops on a greater name or falls
off the end — formalized as: the handler stores the scan result, and on a
sorted NUL-free registry the scan result is exactly the index of the first
name-equal entry (none when there is no such entry). -/
theorem claim_C8_candidate_lookup (g : TinyGPSPlus)
    (hg1 : g.isChecksumTerm = false) (hg2 : g.curTermNumber = 0)
    (elts : List TinyGPSCustom) (name : List Nat)
    (hs : elts.Pairwise entryLe) (hz : ∀ e ∈ elts, 0 ∉ e.sentenceName)
    (hzn : 0 ∉ name) :
    (endOfTermHandler g).2.customCandidates = scanCandidates g.customElts (cstr g.term) ∧
    scanCandidates elts name = firstEqIdx name elts := by
  constructor
  · simp [endOfTermHandler, hg1, hg2]
  · exact scanFrom_eq_firstEqIdx hs hz hzn

theorem claim_C8_witness :
    (endOfTermHandler
        { gpsInit with
            customElts := [mkCustom (bytes "GNGSA") 1, mkCustom (bytes "GPGSA") 5],
            term := (bytes "GPGSA") ++ [0] ++ List.replicate 9 0 }).2.customCandidates =
      scanCandidates
        [mkCustom (bytes "GNGSA") 1, mkCustom (bytes "GPGSA") 5] (bytes "GPGSA") ∧
    scanCandidates [mkCustom (bytes "GNGSA") 1, mkCustom (bytes "GPGSA") 5]
        (bytes "GPGSA") =
      firstEqIdx (bytes "GPGSA")
        [mkCustom (bytes "GNGSA") 1, mkCustom (bytes "GPGSA") 5] := by
  have h := claim_C8_candidate_lookup
    { gpsInit with
        customElts := [mkCustom (bytes "GNGSA") 1, mkCustom (bytes "GPGSA") 5],
        term := (bytes "GPGSA") ++ [0] ++ List.replicate 9 0 }
    (by decide) (by decide)
    [mkCustom (bytes "GNGSA") 1, mkCustom (bytes "GPGSA") 5] (bytes "GPGSA")
    (by decide) (by decide) (by decide)
  exact ⟨by rw [h.1]; decide, h.2⟩

theorem setCustoms_containers (g : TinyGPSPlus) (txt : List Nat) :
    (setCustoms g txt).location = g.location ∧
    (setCustoms g txt).date = g.date ∧
    (setCustoms g txt).time = g.time ∧
    (setCustoms g txt).speed = g.speed ∧
    (setCustoms g txt).course = g.course ∧
    (setCustoms g txt).altitude = g.altitude ∧
    (setCustoms g txt).hdop = g.hdop ∧
    (setCustoms g txt).satellites = g.satellites ∧
    (setCustoms g txt).sentenceHasFix = g.sentenceHasFix := by
  cases hc : g.customCandidates with
  | none => simp [setCustoms, hc]
  | some i =>
    cases hi : g.customElts[i]? with
    | none => simp [setCustoms, hc, hi]
    | some fc => simp [setCustoms, hc, hi]

/-- Claim C9: on a data field of a recognized sentence kind whose
terminated text is empty, the handler dispatches nothing to any native
container: every staged native value, the staged hemisphere sign flags
among them, and the sentence fix flag are left exactly as they were. -/
theorem claim_C9_empty_field_skip (g : TinyGPSPlus)
    (hict : g.isChecksumTerm = false) (htn : g.curTermNumber ≠ 0)
    (hrec : g.curSentenceType ≠ SentenceType.other)
    (hempty : g.term.getD 0 0 = 0) :
    stagedNative (endOfTermHandler g).2 = stagedNative g := by
  have hguard : ¬ (g.curSentenceType ≠ SentenceType.other ∧ g.term.getD 0 0 ≠ 0) := by
    intro h
    exact h.2 hempty
  simp only [endOfTermHandler, hict, Bool.false_eq_true, if_false, if_neg htn,
    if_neg hguard]
  obtain ⟨c1, c2, c3, c4, c5, c6, c7, c8, c9⟩ :=
    setCustoms_containers g (cstr g.term)
  simp only [stagedNative, c1, c2, c3, c4, c5, c6, c7, c8, c9]

theorem claim_C9_witness :
    stagedNative
        (endOfTermHandler
          { gpsInit with curSentenceType := SentenceType.gprmc,
                         curTermNumber := 3 }).2 =
      stagedNative
        { gpsInit with curSentenceType := SentenceType.gprmc,
                       curTermNumber := 3 } :=
  claim_C9_empty_field_skip
    { gpsInit with curSentenceType := SentenceType.gprmc, curTermNumber := 3 }
    (by decide) (by decide) (by decide) (by decide)

theorem commitNative_registry_frame (g : TinyGPSPlus) :
    (commitNative g).customElts = g.customElts ∧
    (commitNative g).customCandidates = g.customCandidates ∧
    (commitNative g).now = g.now := by
  cases hst : g.curSentenceType <;> by_cases hfix : g.sentenceHasFix <;>
    simp [commitNative, hst, hfix]

theorem endOfTermHandler_pass (g : TinyGPSPlus)
    (hict : g.isChecksumTerm = true) (heq : csVal g.term = g.parity) :
    endOfTermHandler g =
      (true, commitCustoms (commitNative
        (if g.sentenceHasFix then
          { g with passedChecksumCount := (g.passedChecksumCount + 1) % 2 ^ 32,
                   sentencesWithFixCount := (g.sentencesWithFixCount + 1) % 2 ^ 32 }
         else
          { g with passedChecksumCount := (g.passedChecksumCount + 1) % 2 ^ 32 }))) := by
  simp only [endOfTermHandler, hict, heq, if_true]

theorem commitCustoms_commitNative_elts (h g : TinyGPSPlus) (i : Nat)
    (he : h.customElts = g.customElts) (hc : h.customCandidates = some i)
    (hn : h.now = g.now) (hi : i < g.customElts.length) :
    (commitCustoms (commitNative h)).customElts =
      g.customElts.take i ++
        ((g.customElts.drop i).takeWhile
            (fun q => decide (strcmpB q.sentenceName
              (g.customElts.get ⟨i, hi⟩).sentenceName = 0))).map
          (fun q => q.commit g.now) ++
        (g.customElts.drop i).dropWhile
          (fun q => decide (strcmpB q.sentenceName
            (g.customElts.get ⟨i, hi⟩).sentenceName = 0)) := by
  have hget : g.customElts[i]? = some (g.customElts.get ⟨i, hi⟩) := by
    rw [List.getElem?_eq_getElem hi]
    rfl
  obtain ⟨n1, n2, n3⟩ := commitNative_registry_frame h
  simp only [commitCustoms, n1, n2, n3, he, hc, hn, hget]
  rw [commitCandidatesRun_eq, ← List.append_assoc]

/-- Claim C10: when a sentence passes its checksum, the whole candidate run
for the cached first candidate's name is committed — the run is delimited
only by the name comparison, with no condition on the registered field
index — and committing an entry publishes whatever its staging buffer
holds and makes it valid and updated. -/
theorem claim_C10_commit_run (g : TinyGPSPlus) (i : Nat) (p : TinyGPSCustom)
    (hict : g.isChecksumTerm = true) (heq : csVal g.term = g.parity)
    (hcand : g.customCandidates = some i) (hi : i < g.customElts.length) :
    (endOfTermHandler g).2.customElts =
      g.customElts.take i ++
        ((g.customElts.drop i).takeWhile
            (fun q => decide (strcmpB q.sentenceName
              (g.customElts.get ⟨i, hi⟩).sentenceName = 0))).map
          (fun q => q.commit g.now) ++
        (g.customElts.drop i).dropWhile
          (fun q => decide (strcmpB q.sentenceName
            (g.customElts.get ⟨i, hi⟩).sentenceName = 0)) ∧
    (p.commit g.now).valid = true ∧ (p.commit g.now).updated = true ∧
    (p.commit g.now).buffer = p.stagingBuffer := by
  refine ⟨?_, rfl, rfl, rfl⟩
  rw [endOfTermHandler_pass g hict heq]
  dsimp only
  refine commitCustoms_commitNative_elts _ g i ?_ ?_ ?_ hi
  · split <;> rfl
  · split <;> exact hcand
  · split <;> rfl

theorem claim_C10_witness :
    (endOfTermHandler w10gps).2.customElts =
      w10gps.customElts.take 0 ++
        ((w10gps.customElts.drop 0).takeWhile
            (fun q => decide (strcmpB q.sentenceName
              (w10gps.customElts.get ⟨0, by decide⟩).sentenceName = 0))).map
          (fun q => q.commit w10gps.now) ++
        (w10gps.customElts.drop 0).dropWhile
          (fun q => decide (strcmpB q.sentenceName
            (w10gps.customElts.get ⟨0, by decide⟩).sentenceName = 0)) ∧
    (w10entry.commit w10gps.now).valid = true ∧
    (w10entry.commit w10gps.now).updated = true ∧
    (w10entry.commit w10gps.now).buffer = w10entry.stagingBuffer :=
  claim_C10_commit_run w10gps 0 w10entry (by decide) (by decide) (by decide) (by decide)

theorem obs_parts {g h : TinyGPSPlus} (he : obs g = obs h) :
    committedState g = committedState h ∧ updatedFlags g = updatedFlags h ∧
    g.passedChecksumCount = h.passedChecksumCount ∧
    g.failedChecksumCount = h.failedChecksumCount ∧
    g.sentencesWithFixCount = h.sentencesWithFixCount := by
  simp only [obs, checksumCounters, Prod.mk.injEq] at he
  exact ⟨he.1, he.2.1, he.2.2.1, he.2.2.2.1, he.2.2.2.2⟩

/-- The checksum introducer, seen while no checksum term is pending: the
observable state is untouched, the machine enters the checksum term, the
term offset resets and the parity is unchanged. -/
theorem encode_star (g : TinyGPSPlus) (hict : g.isChecksumTerm = false)
    (hoff : g.curTermOffset < 15) :
    obs (encode g 42).2 = obs g ∧ (encode g 42).2.isChecksumTerm = true ∧
    (encode g 42).2.curTermOffset = 0 ∧ (encode g 42).2.parity = g.parity := by
  rw [encode_delim g 42 (by norm_num) hoff]
  obtain ⟨e1, e2, e3, e4, e5, e6, e7⟩ := endOfTermHandler_not_checksum
    { g with encodedCharCount := (g.encodedCharCount + 1) % 2 ^ 32,
             parity := parityAfterDelim g.parity (42 % 256),
             term := g.term.set g.curTermOffset 0 } (by exact hict)
  dsimp only
  refine ⟨e2.trans rfl, by norm_num, rfl, ?_⟩
  rw [e6]
  rfl

/-- The reset on the sentence-start marker: observable state untouched, all
transient sentence state cleared. -/
theorem encode_dollar_survey (g : TinyGPSPlus) :
    obs (encode g 36).2 = obs g ∧ (encode g 36).2.isChecksumTerm = false ∧
    (encode g 36).2.curTermOffset = 0 ∧ (encode g 36).2.parity = 0 := by
  rw [encode_dollar g 36 rfl]
  exact ⟨rfl, rfl, rfl, rfl⟩

/-- Claim C1: a sentence whose checksum field fails the comparison leaves
every container's committed value (native and custom) exactly as it was
before the sentence began, leaves every native updated flag as it was (in
particular false stays false), increments the failed-checksum counter by
exactly one and leaves the passed-checksum and fix counters unchanged; the
terminating character's feed call returns false. -/
theorem claim_C1_checksum_mismatch_frame (g0 : TinyGPSPlus)
    (body cs : List Nat) (d : Nat)
    (hbody : ∀ c ∈ body, c % 256 ≠ 36 ∧ c % 256 ≠ 42)
    (hcs : ∀ c ∈ cs,
      ¬ (c % 256 = 44 ∨ c % 256 = 13 ∨ c % 256 = 10 ∨ c % 256 = 42) ∧ c % 256 ≠ 36)
    (hd : d % 256 = 44 ∨ d % 256 = 13 ∨ d % 256 = 10 ∨ d % 256 = 42)
    (hne : csVal ((feedAll g0 (36 :: body ++ 42 :: cs)).term.set
        (feedAll g0 (36 :: body ++ 42 :: cs)).curTermOffset 0) ≠
      parityAfterDelim (feedAll g0 (36 :: body ++ 42 :: cs)).parity (d % 256)) :
    (encodeAll g0 ((36 :: body ++ 42 :: cs) ++ [d])).1 = false ∧
    committedState (feedAll g0 ((36 :: body ++ 42 :: cs) ++ [d])) = committedState g0 ∧
    updatedFlags (feedAll g0 ((36 :: body ++ 42 :: cs) ++ [d])) = updatedFlags g0 ∧
    (feedAll g0 ((36 :: body ++ 42 :: cs) ++ [d])).passedChecksumCount =
      g0.passedChecksumCount ∧
    (feedAll g0 ((36 :: body ++ 42 :: cs) ++ [d])).sentencesWithFixCount =
      g0.sentencesWithFixCount ∧
    (feedAll g0 ((36 :: body ++ 42 :: cs) ++ [d])).failedChecksumCount =
      (g0.failedChecksumCount + 1) % 2 ^ 32 := by
  obtain ⟨d1, d2, d3, d4⟩ := encode_dollar_survey g0
  obtain ⟨b1, b2, b3, b4⟩ := feed_body (encode g0 36).2 body d2 hbody
  have hoffb : (feedAll (encode g0 36).2 body).curTermOffset ≤ 14 :=
    b4 (by rw [d3]; omega)
  obtain ⟨s1, s2, s3, s4⟩ := encode_star (feedAll (encode g0 36).2 body) b2
    (by omega)
  obtain ⟨o1, o2, o3, o4⟩ := feed_ordinary (encode (feedAll (encode g0 36).2 body) 42).2
    cs hcs
  have hs : feedAll g0 (36 :: body ++ 42 :: cs) =
      feedAll (encode (feedAll (encode g0 36).2 body) 42).2 cs := by
    rw [feedAll_append, feedAll_cons, feedAll_cons]
  have hicts : (feedAll g0 (36 :: body ++ 42 :: cs)).isChecksumTerm = true := by
    rw [hs, o2, s2]
  have hoffs : (feedAll g0 (36 :: body ++ 42 :: cs)).curTermOffset < 15 := by
    rw [hs]
    have := o4 (by rw [s3]; omega)
    omega
  obtain ⟨f1, f2, f3, f4, f5, f6⟩ := encode_checksum_fail
    (feedAll g0 (36 :: body ++ 42 :: cs)) d hd hicts hoffs hne
  have hobs : obs (feedAll g0 (36 :: body ++ 42 :: cs)) = obs g0 := by
    rw [hs]
    rw [o1, s1, b1, d1]
  obtain ⟨m1, m2, m3, m4, m5⟩ := obs_parts hobs
  have hlast2 : feedAll g0 ((36 :: body ++ 42 :: cs) ++ [d]) =
      (encode (feedAll g0 (36 :: body ++ 42 :: cs)) d).2 := by
    unfold feedAll
    rw [encodeAll_last]
    rfl
  have hlast1 : (encodeAll g0 ((36 :: body ++ 42 :: cs) ++ [d])).1 =
      (encode (feedAll g0 (36 :: body ++ 42 :: cs)) d).1 := by
    rw [encodeAll_last]
  refine ⟨by rw [hlast1, f1], ?_, ?_, ?_, ?_, ?_⟩
  · rw [hlast2, f2, m1]
  · rw [hlast2, f3, m2]
  · rw [hlast2, f4, m3]
  · rw [hlast2, f5, m5]
  · rw [hlast2, f6, m4]

theorem claim_C1_witness :
    (encodeAll gpsInit ((36 :: [65] ++ 42 :: [48, 48]) ++ [13])).1 = false ∧
    committedState (feedAll gpsInit ((36 :: [65] ++ 42 :: [48, 48]) ++ [13])) =
      committedState gpsInit ∧
    updatedFlags (feedAll gpsInit ((36 :: [65] ++ 42 :: [48, 48]) ++ [13])) =
      updatedFlags gpsInit ∧
    (feedAll gpsInit ((36 :: [65] ++ 42 :: [48, 48]) ++ [13])).passedChecksumCount =
      gpsInit.passedChecksumCount ∧
    (feedAll gpsInit ((36 :: [65] ++ 42 :: [48, 48]) ++ [13])).sentencesWithFixCount =
      gpsInit.sentencesWithFixCount ∧
    (feedAll gpsInit ((36 :: [65] ++ 42 :: [48, 48]) ++ [13])).failedChecksumCount =
      (gpsInit.failedChecksumCount + 1) % 2 ^ 32 :=
  claim_C1_checksum_mismatch_frame gpsInit [65] [48, 48] 13
    (by decide) (by decide) (by decide) (by decide)

theorem encode_offset_all (g : TinyGPSPlus) (c0 : Nat)
    (h : g.curTermOffset ≤ 14) : (encode g c0).2.curTermOffset ≤ 14 := by
  by_cases hd : c0 % 256 = 44 ∨ c0 % 256 = 13 ∨ c0 % 256 = 10 ∨ c0 % 256 = 42
  · rw [encode_delim g c0 hd (by omega)]
    norm_num
  · by_cases h36 : c0 % 256 = 36
    · rw [encode_dollar g c0 h36]
      norm_num
    · exact encode_ordinary_off g c0 hd h36 h

theorem feed_offset (g : TinyGPSPlus) (l : List Nat)
    (h : g.curTermOffset ≤ 14) : (feedAll g l).curTermOffset ≤ 14 := by
  induction l generalizing g with
  | nil => exact h
  | cons c cs ih =>
    rw [feedAll_cons]
    exact ih _ (encode_offset_all g c h)

theorem encode_true_iff (g : TinyGPSPlus) (c0 : Nat)
    (hoff : g.curTermOffset < 15) :
    (encode g c0).1 = true ↔
      ((c0 % 256 = 44 ∨ c0 % 256 = 13 ∨ c0 % 256 = 10 ∨ c0 % 256 = 42) ∧
       g.isChecksumTerm = true ∧
       csVal (g.term.set g.curTermOffset 0) =
         parityAfterDelim g.parity (c0 % 256)) := by
  by_cases hd : c0 % 256 = 44 ∨ c0 % 256 = 13 ∨ c0 % 256 = 10 ∨ c0 % 256 = 42
  · rw [encode_delim g c0 hd hoff]
    dsimp only
    by_cases hict : g.isChecksumTerm = true
    · by_cases hcs : csVal (g.term.set g.curTermOffset 0) =
        parityAfterDelim g.parity (c0 % 256)
      · rw [endOfTermHandler_pass _ (by exact hict) (by exact hcs)]
        simp [hd, hict, hcs]
      · rw [endOfTermHandler_fail _ (by exact hict) (by exact hcs)]
        simp [hd, hict, hcs]
    · obtain ⟨e1, _⟩ := endOfTermHandler_not_checksum
        { g with encodedCharCount := (g.encodedCharCount + 1) % 2 ^ 32,
                 parity := parityAfterDelim g.parity (c0 % 256),
                 term := g.term.set g.curTermOffset 0 }
        (by simpa using hict)
      rw [e1]
      simp [hict]
  · by_cases h36 : c0 % 256 = 36
    · rw [encode_dollar g c0 h36]
      simp [hd]
    · rw [encode_ordinary g c0 hd h36]
      simp [hd]

/-- Claim C2: from any reachable parser state, feeding one character
returns true exactly when that character is a field delimiter terminating
the pending checksum field and the two-hex-digit checksum value read from
the terminated term equals the parity accumulator at the comparison; every
other character — ordinary characters, the sentence-start marker, and a
delimiter closing a checksum field that fails the comparison — returns
false. -/
theorem claim_C2_encode_return (l : List Nat) (c0 : Nat) :
    (encode (feedAll gpsInit l) c0).1 = true ↔
      ((c0 % 256 = 44 ∨ c0 % 256 = 13 ∨ c0 % 256 = 10 ∨ c0 % 256 = 42) ∧
       (feedAll gpsInit l).isChecksumTerm = true ∧
       csVal ((feedAll gpsInit l).term.set (feedAll gpsInit l).curTermOffset 0) =
         parityAfterDelim (feedAll gpsInit l).parity (c0 % 256)) :=
  encode_true_iff (feedAll gpsInit l) c0
    (by have := feed_offset gpsInit l (by decide); omega)

/-- Claim C4, counterexample: feed the sentence start, the single body
character A (byte 65), the checksum introducer and the checksum text 41;
the next character is the field separator, which terminates the checksum
field — and at that comparison the accumulator has the separator itself
folded in (65 xor 44 = 109), so it does not equal the exclusive-or of the
characters between the start marker and the checksum introducer, which is
65. -/
theorem claim_C4_counterexample :
    (feedAll gpsInit [36, 65, 42, 52, 49]).isChecksumTerm = true ∧
    (feedAll gpsInit [36, 65, 42, 52, 49]).curTermOffset < 15 ∧
    xorBetween [65] = 65 ∧
    parityAfterDelim (feedAll gpsInit [36, 65, 42, 52, 49]).parity (44 % 256) ≠
      xorBetween [65] := by
  decide

/-- Claim C4 (amended): at the moment the checksum field of a sentence is
compared, when the terminating character is carriage return, line feed or
the checksum introducer, the accumulator equals the exclusive-or of exactly
the characters fed between the sentence-start marker and the checksum
introducer (ordinary characters — including any dropped by buffer
truncation — and field separators folded in; carriage return and line feed
not); when the terminating character is the field separator, the
accumulator additionally has that separator folded in. -/
theorem claim_C4_parity_coverage (g0 : TinyGPSPlus) (body cs : List Nat) (d : Nat)
    (hbody : ∀ c ∈ body, c % 256 ≠ 36 ∧ c % 256 ≠ 42)
    (hcs : ∀ c ∈ cs,
      ¬ (c % 256 = 44 ∨ c % 256 = 13 ∨ c % 256 = 10 ∨ c % 256 = 42) ∧ c % 256 ≠ 36)
    (hd : d % 256 = 13 ∨ d % 256 = 10 ∨ d % 256 = 42) :
    (feedAll g0 (36 :: body ++ 42 :: cs)).isChecksumTerm = true ∧
    (feedAll g0 (36 :: body ++ 42 :: cs)).curTermOffset < 15 ∧
    parityAfterDelim (feedAll g0 (36 :: body ++ 42 :: cs)).parity (d % 256) =
      xorBetween body ∧
    parityAfterDelim (feedAll g0 (36 :: body ++ 42 :: cs)).parity (44 % 256) =
      xorBetween body ^^^ 44 := by
  obtain ⟨d1, d2, d3, d4⟩ := encode_dollar_survey g0
  obtain ⟨b1, b2, b3, b4⟩ := feed_body (encode g0 36).2 body d2 hbody
  have hoffb : (feedAll (encode g0 36).2 body).curTermOffset ≤ 14 :=
    b4 (by rw [d3]; omega)
  obtain ⟨s1, s2, s3, s4⟩ := encode_star (feedAll (encode g0 36).2 body) b2
    (by omega)
  obtain ⟨o1, o2, o3, o4⟩ := feed_ordinary (encode (feedAll (encode g0 36).2 body) 42).2
    cs hcs
  have hs : feedAll g0 (36 :: body ++ 42 :: cs) =
      feedAll (encode (feedAll (encode g0 36).2 body) 42).2 cs := by
    rw [feedAll_append, feedAll_cons, feedAll_cons]
  have hpar : (feedAll g0 (36 :: body ++ 42 :: cs)).parity = xorBetween body := by
    rw [hs, o3 (by rw [s2]), s4, b3, d4]
    rfl
  have hparD : parityAfterDelim (feedAll g0 (36 :: body ++ 42 :: cs)).parity (d % 256) =
      xorBetween body := by
    rcases hd with h | h | h <;> rw [h] <;>
      simp only [parityAfterDelim, if_neg (by norm_num : ¬ (13 : Nat) = 44),
        if_neg (by norm_num : ¬ (10 : Nat) = 44),
        if_neg (by norm_num : ¬ (42 : Nat) = 44)] <;> exact hpar
  refine ⟨by rw [hs, o2, s2], ?_, hparD, ?_⟩
  · rw [hs]
    have := o4 (by rw [s3]; omega)
    omega
  · show parityAfterDelim (feedAll g0 (36 :: body ++ 42 :: cs)).parity 44 =
      xorBetween body ^^^ 44
    unfold parityAfterDelim
    rw [if_pos rfl, hpar]

theorem claim_C4_witness :
    (feedAll gpsInit (36 :: [65] ++ 42 :: [52, 49])).isChecksumTerm = true ∧
    (feedAll gpsInit (36 :: [65] ++ 42 :: [52, 49])).curTermOffset < 15 ∧
    parityAfterDelim (feedAll gpsInit (36 :: [65] ++ 42 :: [52, 49])).parity
        (13 % 256) = xorBetween [65] ∧
    parityAfterDelim (feedAll gpsInit (36 :: [65] ++ 42 :: [52, 49])).parity
        (44 % 256) = xorBetween [65] ^^^ 44 :=
  claim_C4_parity_coverage gpsInit [65] [52, 49] 13
    (by decide) (by decide) (by decide)

theorem commitCustoms_location (h : TinyGPSPlus) :
    (commitCustoms h).location = h.location := (commitCustoms_native_frame h).1

theorem commitCustoms_date (h : TinyGPSPlus) :
    (commitCustoms h).date = h.date := (commitCustoms_native_frame h).2.1

theorem commitCustoms_time (h : TinyGPSPlus) :
    (commitCustoms h).time = h.time := (commitCustoms_native_frame h).2.2.1

theorem commitCustoms_speed (h : TinyGPSPlus) :
    (commitCustoms h).speed = h.speed := (commitCustoms_native_frame h).2.2.2.1

theorem commitCustoms_course (h : TinyGPSPlus) :
    (commitCustoms h).course = h.course := (commitCustoms_native_frame h).2.2.2.2.1

theorem commitCustoms_altitude (h : TinyGPSPlus) :
    (commitCustoms h).altitude = h.altitude := (commitCustoms_native_frame h).2.2.2.2.2.1

theorem commitCustoms_hdop (h : TinyGPSPlus) :
    (commitCustoms h).hdop = h.hdop := (commitCustoms_native_frame h).2.2.2.2.2.2.1

theorem commitCustoms_satellites (h : TinyGPSPlus) :
    (commitCustoms h).satellites = h.satellites :=
  (commitCustoms_native_frame h).2.2.2.2.2.2.2.1

theorem commitNative_gprmc (g : TinyGPSPlus) (h : g.curSentenceType = .gprmc) :
    (commitNative g).date.updated = true ∧ (commitNative g).time.updated = true ∧
    (commitNative g).location.updated = (g.sentenceHasFix || g.location.updated) ∧
    (commitNative g).speed.updated = (g.sentenceHasFix || g.speed.updated) ∧
    (commitNative g).course.updated = (g.sentenceHasFix || g.course.updated) := by
  by_cases hfix : g.sentenceHasFix = true <;>
    simp [commitNative, h, hfix, TinyGPSDate.commit, TinyGPSTime.commit,
      TinyGPSLocation.commit, TinyGPSDecimal.commit]

theorem commitNative_gpgga (g : TinyGPSPlus) (h : g.curSentenceType = .gpgga) :
    (commitNative g).time.updated = true ∧
    (commitNative g).satellites.updated = true ∧
    (commitNative g).hdop.updated = true ∧
    (commitNative g).location.updated = (g.sentenceHasFix || g.location.updated) ∧
    (commitNative g).altitude.updated = (g.sentenceHasFix || g.altitude.updated) := by
  by_cases hfix : g.sentenceHasFix = true <;>
    simp [commitNative, h, hfix, TinyGPSTime.commit, TinyGPSInteger.commit,
      TinyGPSLocation.commit, TinyGPSDecimal.commit]

theorem pass_updated_gprmc (h : TinyGPSPlus) (hst : h.curSentenceType = .gprmc) :
    (commitCustoms (commitNative h)).date.updated = true ∧
    (commitCustoms (commitNative h)).time.updated = true ∧
    (commitCustoms (commitNative h)).location.updated =
      (h.sentenceHasFix || h.location.updated) ∧
    (commitCustoms (commitNative h)).speed.updated =
      (h.sentenceHasFix || h.speed.updated) ∧
    (commitCustoms (commitNative h)).course.updated =
      (h.sentenceHasFix || h.course.updated) := by
  simp only [commitCustoms_date, commitCustoms_time, commitCustoms_location,
    commitCustoms_speed, commitCustoms_course]
  exact commitNative_gprmc h hst

theorem pass_updated_gpgga (h : TinyGPSPlus) (hst : h.curSentenceType = .gpgga) :
    (commitCustoms (commitNative h)).time.updated = true ∧
    (commitCustoms (commitNative h)).satellites.updated = true ∧
    (commitCustoms (commitNative h)).hdop.updated = true ∧
    (commitCustoms (commitNative h)).location.updated =
      (h.sentenceHasFix || h.location.updated) ∧
    (commitCustoms (commitNative h)).altitude.updated =
      (h.sentenceHasFix || h.altitude.updated) := by
  simp only [commitCustoms_time, commitCustoms_satellites, commitCustoms_hdop,
    commitCustoms_location, commitCustoms_altitude]
  exact commitNative_gpgga h hst

/-- One delimiter closing a checksum field that matches: the call returns
true, and the updated flags afterwards follow the kind-specific commit
pattern — the fix-gated containers turn updated only if the sentence had a
fix (or were already updated). -/
theorem encode_pass_step (g : TinyGPSPlus) (c0 : Nat)
    (hd : c0 % 256 = 44 ∨ c0 % 256 = 13 ∨ c0 % 256 = 10 ∨ c0 % 256 = 42)
    (hict : g.isChecksumTerm = true) (hoff : g.curTermOffset < 15)
    (heq : csVal (g.term.set g.curTermOffset 0) =
      parityAfterDelim g.parity (c0 % 256)) :
    (encode g c0).1 = true ∧
    (g.curSentenceType = SentenceType.gprmc →
      (encode g c0).2.date.updated = true ∧
      (encode g c0).2.time.updated = true ∧
      (encode g c0).2.location.updated = (g.sentenceHasFix || g.location.updated) ∧
      (encode g c0).2.speed.updated = (g.sentenceHasFix || g.speed.updated) ∧
      (encode g c0).2.course.updated = (g.sentenceHasFix || g.course.updated)) ∧
    (g.curSentenceType = SentenceType.gpgga →
      (encode g c0).2.time.updated = true ∧
      (encode g c0).2.satellites.updated = true ∧
      (encode g c0).2.hdop.updated = true ∧
      (encode g c0).2.location.updated = (g.sentenceHasFix || g.location.updated) ∧
      (encode g c0).2.altitude.updated = (g.sentenceHasFix || g.altitude.updated)) := by
  rw [encode_delim g c0 hd hoff]
  rw [endOfTermHandler_pass _ (by exact hict) (by exact heq)]
  dsimp only
  refine ⟨rfl, ?_, ?_⟩
  · intro hst
    by_cases hfix : g.sentenceHasFix = true
    · simp only [hfix, if_true]
      exact pass_updated_gprmc _ (by exact hst)
    · simp only [hfix, Bool.false_eq_true, if_false]
      exact pass_updated_gprmc _ (by exact hst)
  · intro hst
    by_cases hfix : g.sentenceHasFix = true
    · simp only [hfix, if_true]
      exact pass_updated_gpgga _ (by exact hst)
    · simp only [hfix, Bool.false_eq_true, if_false]
      exact pass_updated_gpgga _ (by exact hst)

/-- Claim C3, counterexample: the position/velocity sentence whose status
letter is V (no fix) and whose checksum 1D is correct — bytes of the text
GPRMC,,V between start marker and checksum — validates (the feed call on
the terminating carriage return returns true, the passed counter steps,
date reports updated), yet the location container, although its index
range sits in the kind's dispatch table, does not report updated: the
location/speed/course commits are gated on the fix flag. -/
theorem claim_C3_counterexample :
    (encodeAll gpsInit [36, 71, 80, 82, 77, 67, 44, 44, 86, 42, 49, 68, 13]).1 =
      true ∧
    (feedAll gpsInit
        [36, 71, 80, 82, 77, 67, 44, 44, 86, 42, 49, 68, 13]).curSentenceType =
      SentenceType.gprmc ∧
    (feedAll gpsInit
        [36, 71, 80, 82, 77, 67, 44, 44, 86, 42, 49, 68, 13]).passedChecksumCount = 1 ∧
    (feedAll gpsInit
        [36, 71, 80, 82, 77, 67, 44, 44, 86, 42, 49, 68, 13]).date.updated = true ∧
    (feedAll gpsInit
        [36, 71, 80, 82, 77, 67, 44, 44, 86, 42, 49, 68, 13]).location.updated =
      false := by
  decide

/-- Claim C3 (amended): for every well-formed sentence of a recognized
kind whose two-hex-digit checksum field matches the accumulator, feeding
it character by character yields true on the character terminating the
checksum field, and afterwards the containers committed unconditionally
for that kind (position/velocity: date, time; fix-data: time, satellite
count, dilution-of-precision) report updated, while the fix-gated
containers (position/velocity: location, speed, course; fix-data:
location, altitude) report updated exactly when the sentence indicated a
valid fix or they were already updated. -/
theorem claim_C3_commit_fix_gated (g0 : TinyGPSPlus) (body : List Nat)
    (c1 c2 d : Nat)
    (hbody : ∀ c ∈ body, c % 256 ≠ 36 ∧ c % 256 ≠ 42)
    (hcs : ∀ c ∈ [c1, c2],
      ¬ (c % 256 = 44 ∨ c % 256 = 13 ∨ c % 256 = 10 ∨ c % 256 = 42) ∧ c % 256 ≠ 36)
    (hd : d % 256 = 44 ∨ d % 256 = 13 ∨ d % 256 = 10 ∨ d % 256 = 42)
    (hmatch : csVal ((feedAll g0 (36 :: body ++ 42 :: [c1, c2])).term.set
        (feedAll g0 (36 :: body ++ 42 :: [c1, c2])).curTermOffset 0) =
      parityAfterDelim (feedAll g0 (36 :: body ++ 42 :: [c1, c2])).parity (d % 256)) :
    (encodeAll g0 ((36 :: body ++ 42 :: [c1, c2]) ++ [d])).1 = true ∧
    ((feedAll g0 (36 :: body ++ 42 :: [c1, c2])).curSentenceType =
        SentenceType.gprmc →
      (feedAll g0 ((36 :: body ++ 42 :: [c1, c2]) ++ [d])).date.updated = true ∧
      (feedAll g0 ((36 :: body ++ 42 :: [c1, c2]) ++ [d])).time.updated = true ∧
      (feedAll g0 ((36 :: body ++ 42 :: [c1, c2]) ++ [d])).location.updated =
        ((feedAll g0 (36 :: body ++ 42 :: [c1, c2])).sentenceHasFix ||
          (feedAll g0 (36 :: body ++ 42 :: [c1, c2])).location.updated) ∧
      (feedAll g0 ((36 :: body ++ 42 :: [c1, c2]) ++ [d])).speed.updated =
        ((feedAll g0 (36 :: body ++ 42 :: [c1, c2])).sentenceHasFix ||
          (feedAll g0 (36 :: body ++ 42 :: [c1, c2])).speed.updated) ∧
      (feedAll g0 ((36 :: body ++ 42 :: [c1, c2]) ++ [d])).course.updated =
        ((feedAll g0 (36 :: body ++ 42 :: [c1, c2])).sentenceHasFix ||
          (feedAll g0 (36 :: body ++ 42 :: [c1, c2])).course.updated)) ∧
    ((feedAll g0 (36 :: body ++ 42 :: [c1, c2])).curSentenceType =
        SentenceType.gpgga →
      (feedAll g0 ((36 :: body ++ 42 :: [c1, c2]) ++ [d])).time.updated = true ∧
      (feedAll g0 ((36 :: body ++ 42 :: [c1, c2]) ++ [d])).satellites.updated = true ∧
      (feedAll g0 ((36 :: body ++ 42 :: [c1, c2]) ++ [d])).hdop.updated = true ∧
      (feedAll g0 ((36 :: body ++ 42 :: [c1, c2]) ++ [d])).location.updated =
        ((feedAll g0 (36 :: body ++ 42 :: [c1, c2])).sentenceHasFix ||
          (feedAll g0 (36 :: body ++ 42 :: [c1, c2])).location.updated) ∧
      (feedAll g0 ((36 :: body ++ 42 :: [c1, c2]) ++ [d])).altitude.updated =
        ((feedAll g0 (36 :: body ++ 42 :: [c1, c2])).sentenceHasFix ||
          (feedAll g0 (36 :: body ++ 42 :: [c1, c2])).altitude.updated)) := by
  obtain ⟨d1, d2, d3, d4⟩ := encode_dollar_survey g0
  obtain ⟨b1, b2, b3, b4⟩ := feed_body (encode g0 36).2 body d2 hbody
  have hoffb : (feedAll (encode g0 36).2 body).curTermOffset ≤ 14 :=
    b4 (by rw [d3]; omega)
  obtain ⟨s1, s2, s3, s4⟩ := encode_star (feedAll (encode g0 36).2 body) b2
    (by omega)
  obtain ⟨o1, o2, o3, o4⟩ := feed_ordinary
    (encode (feedAll (encode g0 36).2 body) 42).2 [c1, c2] hcs
  have hs : feedAll g0 (36 :: body ++ 42 :: [c1, c2]) =
      feedAll (encode (feedAll (encode g0 36).2 body) 42).2 [c1, c2] := by
    rw [feedAll_append, feedAll_cons g0 36 body,
      feedAll_cons (feedAll (encode g0 36).2 body) 42 [c1, c2]]
  have hicts : (feedAll g0 (36 :: body ++ 42 :: [c1, c2])).isChecksumTerm = true := by
    rw [hs, o2, s2]
  have hoffs : (feedAll g0 (36 :: body ++ 42 :: [c1, c2])).curTermOffset < 15 := by
    rw [hs]
    have := o4 (by rw [s3]; omega)
    omega
  obtain ⟨p1, p2, p3⟩ := encode_pass_step
    (feedAll g0 (36 :: body ++ 42 :: [c1, c2])) d hd hicts hoffs hmatch
  have hlast2 : feedAll g0 ((36 :: body ++ 42 :: [c1, c2]) ++ [d]) =
      (encode (feedAll g0 (36 :: body ++ 42 :: [c1, c2])) d).2 := by
    unfold feedAll
    rw [encodeAll_last]
    rfl
  have hlast1 : (encodeAll g0 ((36 :: body ++ 42 :: [c1, c2]) ++ [d])).1 =
      (encode (feedAll g0 (36 :: body ++ 42 :: [c1, c2])) d).1 := by
    rw [encodeAll_last]
  refine ⟨by rw [hlast1, p1], ?_, ?_⟩
  · intro hst
    obtain ⟨q1, q2, q3, q4, q5⟩ := p2 hst
    exact ⟨by rw [hlast2, q1], by rw [hlast2, q2], by rw [hlast2, q3],
      by rw [hlast2, q4], by rw [hlast2, q5]⟩
  · intro hst
    obtain ⟨q1, q2, q3, q4, q5⟩ := p3 hst
    exact ⟨by rw [hlast2, q1], by rw [hlast2, q2], by rw [hlast2, q3],
      by rw [hlast2, q4], by rw [hlast2, q5]⟩

theorem claim_C3_witness :
    (encodeAll gpsInit
        ((36 :: [71, 80, 82, 77, 67, 44, 44, 65] ++ 42 :: [48, 65]) ++ [13])).1 =
      true ∧
    ((feedAll gpsInit
        (36 :: [71, 80, 82, 77, 67, 44, 44, 65] ++ 42 :: [48, 65])).curSentenceType =
        SentenceType.gprmc →
      (feedAll gpsInit
          ((36 :: [71, 80, 82, 77, 67, 44, 44, 65] ++ 42 :: [48, 65]) ++
            [13])).date.updated = true ∧
      (feedAll gpsInit
          ((36 :: [71, 80, 82, 77, 67, 44, 44, 65] ++ 42 :: [48, 65]) ++
            [13])).time.updated = true ∧
      (feedAll gpsInit
          ((36 :: [71, 80, 82, 77, 67, 44, 44, 65] ++ 42 :: [48, 65]) ++
            [13])).location.updated =
        ((feedAll gpsInit
            (36 :: [71, 80, 82, 77, 67, 44, 44, 65] ++ 42 :: [48, 65])).sentenceHasFix ||
          (feedAll gpsInit
            (36 :: [71, 80, 82, 77, 67, 44, 44, 65] ++ 42 :: [48, 65])).location.updated) ∧
      (feedAll gpsInit
          ((36 :: [71, 80, 82, 77, 67, 44, 44, 65] ++ 42 :: [48, 65]) ++
            [13])).speed.updated =
        ((feedAll gpsInit
            (36 :: [71, 80, 82, 77, 67, 44, 44, 65] ++ 42 :: [48, 65])).sentenceHasFix ||
          (feedAll gpsInit
            (36 :: [71, 80, 82, 77, 67, 44, 44, 65] ++ 42 :: [48, 65])).speed.updated) ∧
      (feedAll gpsInit
          ((36 :: [71, 80, 82, 77, 67, 44, 44, 65] ++ 42 :: [48, 65]) ++
            [13])).course.updated =
        ((feedAll gpsInit
            (36 :: [71, 80, 82, 77, 67, 44, 44, 65] ++ 42 :: [48, 65])).sentenceHasFix ||
          (feedAll gpsInit
            (36 :: [71, 80, 82, 77, 67, 44, 44, 65] ++ 42 :: [48, 65])).course.updated)) ∧
    ((feedAll gpsInit
        (36 :: [71, 80, 82, 77, 67, 44, 44, 65] ++ 42 :: [48, 65])).curSentenceType =
        SentenceType.gpgga →
      (feedAll gpsInit
          ((36 :: [71, 80, 82, 77, 67, 44, 44, 65] ++ 42 :: [48, 65]) ++
            [13])).time.updated = true ∧
      (feedAll gpsInit
          ((36 :: [71, 80, 82, 77, 67, 44, 44, 65] ++ 42 :: [48, 65]) ++
            [13])).satellites.updated = true ∧
      (feedAll gpsInit
          ((36 :: [71, 80, 82, 77, 67, 44, 44, 65] ++ 42 :: [48, 65]) ++
            [13])).hdop.updated = true ∧
      (feedAll gpsInit
          ((36 :: [71, 80, 82, 77, 67, 44, 44, 65] ++ 42 :: [48, 65]) ++
            [13])).location.updated =
        ((feedAll gpsInit
            (36 :: [71, 80, 82, 77, 67, 44, 44, 65] ++ 42 :: [48, 65])).sentenceHasFix ||
          (feedAll gpsInit
            (36 :: [71, 80, 82, 77, 67, 44, 44, 65] ++ 42 :: [48, 65])).location.updated) ∧
      (feedAll gpsInit
          ((36 :: [71, 80, 82, 77, 67, 44, 44, 65] ++ 42 :: [48, 65]) ++
            [13])).altitude.updated =
        ((feedAll gpsInit
            (36 :: [71, 80, 82, 77, 67, 44, 44, 65] ++ 42 :: [48, 65])).sentenceHasFix ||
          (feedAll gpsInit
            (36 :: [71, 80, 82, 77, 67, 44, 44, 65] ++ 42 :: [48, 65])).altitude.updated)) :=
  claim_C3_commit_fix_gated gpsInit [71, 80, 82, 77, 67, 44, 44, 65] 48 65 13
    (by decide) (by decide) (by decide) (by decide)
